import Mathlib

/-!
Shallow embedding of the scheduling core of the rp4/schedule repository.

Covered source files:
* src/lib/metrics.ts                    (batch metrics calculator)
* src/lib/metrics/incrementalMetrics.ts (incremental metrics cache)
* src/unnamed/part_003                  (placeholder optimizer)

Conventions of the embedding:
* JavaScript numbers are modelled as rationals (ℚ); functions returning
  values produced by Math.round return integers (ℤ).
* JavaScript strings are Lean Strings.  The string-or fallback pattern
  of the source, x || y, is modelled by jsOr, with the empty string as
  the only falsy string.
* A JavaScript Map is modelled as an insertion-ordered association list
  (SMap); Map.set updates an existing key in place and appends a new
  key at the end, exactly as in JS.  A JS Set is an insertion-ordered
  duplicate-free list (SSet).
* A Date is modelled as an integer day number; date-fns
  differenceInWeeks truncates the day difference divided by 7 toward
  zero, which Int.tdiv does.
-/

namespace Sched

/-- JS truthiness fallback on strings: a || b, where only "" is falsy. -/
def jsOr (a b : String) : String := if a = ("") then b else a

/-- Floor of a rational, computed on the normalized fraction so that
kernel reduction (decide) works. -/
def ratFloor (q : ℚ) : ℤ := Int.fdiv q.num (q.den : ℤ)

/-- Math.round: round half toward positive infinity (JS semantics). -/
def jsRound (q : ℚ) : ℤ := ratFloor (q + 1/2)

/-- date-fns differenceInWeeks on day numbers: truncated division by 7. -/
def differenceInWeeks (endD startD : ℤ) : ℤ := Int.tdiv (endD - startD) 7

/-- Model of a JS Map with string keys: insertion-ordered entry list. -/
abbrev SMap (α : Type) := List (String × α)

/-- Map.get: first (only) entry with the key. -/
def SMap.get? {α : Type} : SMap α → String → Option α
  | [], _ => none
  | p :: m, k => if p.1 = k then some p.2 else SMap.get? m k

/-- Map.get with a default for a missing key (the `|| d` pattern). -/
def SMap.getD {α : Type} (m : SMap α) (k : String) (d : α) : α :=
  (SMap.get? m k).getD d

/-- Map.has. -/
def SMap.hasKey {α : Type} (m : SMap α) (k : String) : Bool :=
  m.any (fun p => p.1 = k)

/-- Map.set: replace in place when the key exists, append otherwise. -/
def SMap.set {α : Type} (m : SMap α) (k : String) (v : α) : SMap α :=
  if SMap.hasKey m k then m.map (fun p => if p.1 = k then (k, v) else p)
  else m ++ [(k, v)]

/-- Map.delete. -/
def SMap.del {α : Type} (m : SMap α) (k : String) : SMap α :=
  m.filter (fun p => ¬ p.1 = k)

/-- The keys of a map, in iteration order. -/
def SMap.keys {α : Type} (m : SMap α) : List String := m.map (fun p => p.1)

/-- Model of a JS Set of strings: insertion-ordered duplicate-free list. -/
abbrev SSet := List String

/-- Set.has. -/
def SSet.has (s : SSet) (k : String) : Bool := s.any (fun x => x = k)

/-- Set.add: append when absent. -/
def SSet.insert (s : SSet) (k : String) : SSet :=
  if SSet.has s k then s else s ++ [k]

/-- Set.delete. -/
def SSet.del (s : SSet) (k : String) : SSet := s.filter (fun x => ¬ x = k)

/-! ## Data model (src/types/schedule, part_010) -/

/-- ProficiencyLevel: 'Beginner' | 'Intermediate' | 'Expert'. -/
inductive Prof where
  | Beginner
  | Intermediate
  | Expert
deriving DecidableEq, Repr

/-- Employee record; skills is the JS object mapping skill name to level. -/
structure Employee where
  id : String
  name : String
  maxHours : ℚ
  skills : SMap Prof
deriving DecidableEq, Repr

/-- Project record; requiredSkills is optional in the TS type. -/
structure Project where
  id : String
  name : String
  startDate : ℤ
  endDate : ℤ
  requiredSkills : Option (List String)
deriving DecidableEq, Repr

/-- Assignment record; week and date are strings, "" when absent. -/
structure Assignment where
  id : String
  employeeId : String
  projectId : String
  hours : ℚ
  week : String
  date : String
deriving DecidableEq, Repr

/-- DateRange with start and end dates (day numbers). -/
structure DateRange where
  start : ℤ
  endD : ℤ
deriving DecidableEq, Repr

/-- ScheduleData: the full dataset handed to the optimizer. -/
structure ScheduleData where
  employees : List Employee
  projects : List Project
  assignments : List Assignment
  skills : List String
  teams : List String
deriving DecidableEq, Repr

/-- The result record of calculateMetrics / getMetrics. -/
structure Metrics where
  overtimeHours : ℤ
  resourceUtilization : ℤ
  skillsMatching : ℤ
deriving DecidableEq, Repr

/-- new Map(employees.map(e => [e.id, e])). -/
def mapById (es : List Employee) : SMap Employee :=
  es.foldl (fun m e => SMap.set m e.id e) []

/-- new Map(projects.map(p => [p.id, p])). -/
def projById (ps : List Project) : SMap Project :=
  ps.foldl (fun m p => SMap.set m p.id p) []

/-! ## Batch metrics calculator (src/lib/metrics.ts) -/

/-- PROFICIENCY_SCORES: the 1/2/3 integer scale of the batch calculator. -/
def PROFICIENCY_SCORES : Prof → ℚ
  | Prof.Beginner => 1
  | Prof.Intermediate => 2
  | Prof.Expert => 3

/-- The batch period key: assignment.date || assignment.week
(metrics.ts lines 45 and 97, part_003 line 305). -/
def batchPeriodKey (a : Assignment) : String := jsOr a.date a.week

/-- The timePeriodsSet of calculateResourceUtilization: the set of
batch period keys of all assignments, in first-occurrence order. -/
def periodKeySet (assignments : List Assignment) : SSet :=
  assignments.foldl (fun s a => SSet.insert s (batchPeriodKey a)) []

/-- The employeeAssignedHours map of calculateResourceUtilization:
total hours per employeeId over all assignments. -/
def sumHoursByEmployee (assignments : List Assignment) : SMap ℚ :=
  assignments.foldl
    (fun m a => SMap.set m a.employeeId (SMap.getD m a.employeeId 0 + a.hours)) []

/-- calculateResourceUtilization (metrics.ts lines 24-75).  A Date
object is always truthy, so the date-range branch is taken exactly when
a range is supplied. -/
def calculateResourceUtilization (employees : List Employee)
    (assignments : List Assignment) (dateRange : Option DateRange) : ℤ :=
  if employees = [] then 0
  else
    let numPeriods : ℤ :=
      match dateRange with
      | some r => max 1 (differenceInWeeks r.endD r.start + 1)
      | none => max 1 (periodKeySet assignments).length
    let employeeAssignedHours := sumHoursByEmployee assignments
    let totalMaxCapacity : ℚ :=
      employees.foldl (fun s e => s + e.maxHours * (numPeriods : ℚ)) 0
    let totalAssignedHours : ℚ :=
      employees.foldl (fun s e => s + SMap.getD employeeAssignedHours e.id 0) 0
    if totalMaxCapacity > 0 then jsRound (totalAssignedHours / totalMaxCapacity * 100)
    else 0

/-- The employeeId → period → hours nesting shared by calculateMetrics
and the optimizer's calculateTotalOvertime; entries failing the filter
p are skipped inside the loop (calculateMetrics passes a trivial p). -/
def hoursByPeriodIf (p : Assignment → Bool) (key : Assignment → String)
    (assignments : List Assignment) : SMap (SMap ℚ) :=
  assignments.foldl
    (fun outer a =>
      if p a then
        SMap.set outer a.employeeId
          (SMap.set (SMap.getD outer a.employeeId []) (key a)
            (SMap.getD (SMap.getD outer a.employeeId []) (key a) 0 + a.hours))
      else outer) []

/-- The per-employee overtime summation loop shared by calculateMetrics
and calculateTotalOvertime: for each employee, for each period bucket,
add hours − maxHours when positive. -/
def overtimeFromBuckets (employees : List Employee)
    (buckets : SMap (SMap ℚ)) : ℚ :=
  employees.foldl
    (fun acc e =>
      match SMap.get? buckets e.id with
      | some periodHours =>
          periodHours.foldl
            (fun t q => if q.2 > e.maxHours then t + (q.2 - e.maxHours) else t) acc
      | none => acc) 0

/-- calculateSkillsMatch inner loop: sum of proficiency scores of the
employee over the project's required skills (missing skill adds 0). -/
def skillScoreOf (employee : Employee) (skills : List String) : ℚ :=
  skills.foldl
    (fun s sk =>
      match SMap.get? employee.skills sk with
      | some prof => s + PROFICIENCY_SCORES prof
      | none => s) 0

/-- calculateSkillsMatch (metrics.ts lines 146-187): total over unique
employee-project pairs; unresolved references and projects without
required skills are skipped before the pair is recorded. -/
def calculateSkillsMatch (assignments : List Assignment)
    (employeeMap : SMap Employee) (projectMap : SMap Project) : ℚ :=
  (assignments.foldl
    (fun (st : ℚ × SSet) a =>
      let pairKey := a.employeeId ++ ("-") ++ a.projectId
      if SSet.has st.2 pairKey then st
      else
        match SMap.get? employeeMap a.employeeId, SMap.get? projectMap a.projectId with
        | some employee, some project =>
            match project.requiredSkills with
            | none => st
            | some skills =>
                if skills.length = 0 then st
                else (st.1 + skillScoreOf employee skills, SSet.insert st.2 pairKey)
        | _, _ => st) (0, [])).1

/-- calculateMetrics (metrics.ts lines 77-132). -/
def calculateMetrics (employees : List Employee) (projects : List Project)
    (assignments : List Assignment) (dateRange : Option DateRange) : Metrics :=
  let employeeMap := mapById employees
  let projectMap := projById projects
  let employeeHoursByPeriod := hoursByPeriodIf (fun _ => true) batchPeriodKey assignments
  let overtimeHours := overtimeFromBuckets employees employeeHoursByPeriod
  { overtimeHours := jsRound overtimeHours
    resourceUtilization := calculateResourceUtilization employees assignments dateRange
    skillsMatching := jsRound (calculateSkillsMatch assignments employeeMap projectMap) }

/-- getEmployeeProjectSkillScore (metrics.ts lines 197-212). -/
def getEmployeeProjectSkillScore (employee : Employee) (project : Project) : ℚ :=
  match project.requiredSkills with
  | none => 0
  | some skills => skillScoreOf employee skills

/-- createSkillScoreMatrix (metrics.ts lines 222-244): sparse two-level
map keeping only positive scores and only employees with at least one. -/
def createSkillScoreMatrix (employees : List Employee) (projects : List Project) :
    SMap (SMap ℚ) :=
  employees.foldl
    (fun matrix e =>
      let projectScores := projects.foldl
        (fun ps proj =>
          let score := getEmployeeProjectSkillScore e proj
          if score > 0 then SMap.set ps proj.id score else ps) []
      if projectScores.length > 0 then SMap.set matrix e.id projectScores else matrix)
    []

/-! ## Incremental metrics cache (src/lib/metrics/incrementalMetrics.ts)

The class state is modelled as a record; each method becomes a function
from state to state (or to a result).  The lastCalculated timestamp
carries no metric content and is omitted. -/

/-- The incremental period key: assignment.week || assignment.date || ''
(incrementalMetrics.ts lines 109, 159, 174, 250, 281). -/
def incPeriodKey (a : Assignment) : String := jsOr (jsOr a.week a.date) ("")

/-- The full state of IncrementalMetricsCalculator: cache, dirty
tracking, entity maps and both reverse indices. -/
structure IncState where
  overtimeByEmployee : SMap (SMap ℚ)
  utilizationByEmployee : SMap ℚ
  skillsMatchByProject : SMap ℚ
  isDirty : Bool
  dirtyEmployees : SSet
  dirtyProjects : SSet
  dirtyWeeks : SSet
  employees : SMap Employee
  projects : SMap Project
  assignments : SMap Assignment
  assignmentsByEmployee : SMap SSet
  assignmentsByProject : SMap SSet
deriving DecidableEq, Repr

/-- Partial<Assignment>: a field is none when absent from the patch. -/
structure AssignmentPatch where
  id : Option String := none
  employeeId : Option String := none
  projectId : Option String := none
  hours : Option ℚ := none
  week : Option String := none
  date : Option String := none
deriving DecidableEq, Repr

/-- The spread {...existing, ...updates}. -/
def applyPatch (a : Assignment) (u : AssignmentPatch) : Assignment :=
  { id := u.id.getD a.id
    employeeId := u.employeeId.getD a.employeeId
    projectId := u.projectId.getD a.projectId
    hours := u.hours.getD a.hours
    week := u.week.getD a.week
    date := u.date.getD a.date }

/-- JS truthiness of an optional string field of a patch: present and
not the empty string. -/
def patchTruthy (o : Option String) : Bool :=
  match o with
  | some s => ¬ s = ("")
  | none => false

/-- calculateEmployeeOvertime (lines 240-264): rebuild the employee's
week → positive-overtime map from its own index slice.  A missing
employee returns without touching the cache. -/
def calcEmployeeOvertime (s : IncState) (employeeId : String) : IncState :=
  match SMap.get? s.employees employeeId with
  | none => s
  | some employee =>
    let assignmentIds := SMap.getD s.assignmentsByEmployee employeeId []
    let weeklyHours := assignmentIds.foldl
      (fun m aid =>
        match SMap.get? s.assignments aid with
        | some a => SMap.set m (incPeriodKey a) (SMap.getD m (incPeriodKey a) 0 + a.hours)
        | none => m) ([] : SMap ℚ)
    let overtimeByWeek := weeklyHours.foldl
      (fun m q =>
        let overtime := max 0 (q.2 - employee.maxHours)
        if overtime > 0 then SMap.set m q.1 overtime else m) ([] : SMap ℚ)
    { s with overtimeByEmployee := SMap.set s.overtimeByEmployee employeeId overtimeByWeek }

/-- calculateEmployeeUtilization (lines 269-289): totalHours over
maxHours × distinct weeks worked, clamped to 100. -/
def calcEmployeeUtilization (s : IncState) (employeeId : String) : IncState :=
  match SMap.get? s.employees employeeId with
  | none => s
  | some employee =>
    let assignmentIds := SMap.getD s.assignmentsByEmployee employeeId []
    let totals := assignmentIds.foldl
      (fun (p : ℚ × SSet) aid =>
        match SMap.get? s.assignments aid with
        | some a => (p.1 + a.hours, SSet.insert p.2 (incPeriodKey a))
        | none => p) ((0 : ℚ), ([] : SSet))
    let maxCapacity := employee.maxHours * (max 1 totals.2.length : ℕ)
    let utilization := if maxCapacity > 0 then totals.1 / maxCapacity * 100 else 0
    let newCache := SMap.set s.utilizationByEmployee employeeId (min 100 utilization)
    { s with utilizationByEmployee := newCache }

/-- The fractional proficiency weights of the incremental module
(Expert 1.0, Intermediate 0.7, Beginner 0.4). -/
def fracWeight : Prof → ℚ
  | Prof.Expert => 1
  | Prof.Intermediate => 7/10
  | Prof.Beginner => 2/5

/-- calculateSkillsMatch of the incremental module (lines 332-355):
fraction of the project's required skills covered, weighted. -/
def calcSkillsMatchFrac (employee : Employee) (project : Project) : ℚ :=
  match project.requiredSkills with
  | none => 1
  | some rs =>
    if rs.length = 0 then 1
    else if employee.skills.length = 0 then 0
    else
      let weightedScore := rs.foldl
        (fun sc sk =>
          match SMap.get? employee.skills sk with
          | some prof => sc + fracWeight prof
          | none => sc) 0
      if rs.length > 0 then weightedScore / (rs.length : ℚ) else 0

/-- calculateProjectSkillsMatch (lines 294-327).  Note that a projectId
that does not resolve falls into the first branch and is cached as 100,
exactly like a project with no required skills. -/
def calcProjectSkillsMatch (s : IncState) (projectId : String) : IncState :=
  match SMap.get? s.projects projectId with
  | none => { s with skillsMatchByProject := SMap.set s.skillsMatchByProject projectId 100 }
  | some project =>
    match project.requiredSkills with
    | none => { s with skillsMatchByProject := SMap.set s.skillsMatchByProject projectId 100 }
    | some rs =>
      if rs.length = 0 then
        { s with skillsMatchByProject := SMap.set s.skillsMatchByProject projectId 100 }
      else
        let assignmentIds := SMap.getD s.assignmentsByProject projectId []
        let employeesOnProject := assignmentIds.foldl
          (fun es aid =>
            match SMap.get? s.assignments aid with
            | some a => SSet.insert es a.employeeId
            | none => es) ([] : SSet)
        if employeesOnProject.length = 0 then
          { s with skillsMatchByProject := SMap.set s.skillsMatchByProject projectId 0 }
        else
          let totalMatch := employeesOnProject.foldl
            (fun t eid =>
              match SMap.get? s.employees eid with
              | some employee => t + calcSkillsMatchFrac employee project
              | none => t) 0
          let averageMatch := totalMatch / (employeesOnProject.length : ℚ) * 100
          { s with skillsMatchByProject :=
              SMap.set s.skillsMatchByProject projectId averageMatch }

/-- clearDirtyTracking (lines 392-396). -/
def clearDirtyTracking (s : IncState) : IncState :=
  { s with dirtyEmployees := [], dirtyProjects := [], dirtyWeeks := [] }

/-- calculateAll (lines 200-215): recompute every employee and project
in the entity maps, then clear dirtiness. -/
def calculateAll (s : IncState) : IncState :=
  let s1 := s.employees.foldl
    (fun st p => calcEmployeeUtilization (calcEmployeeOvertime st p.1) p.1) s
  let s2 := s1.projects.foldl (fun st p => calcProjectSkillsMatch st p.1) s1
  clearDirtyTracking { s2 with isDirty := false }

/-- recalculateDirty (lines 220-235): recompute only dirty entities. -/
def recalculateDirty (s : IncState) : IncState :=
  let s1 := s.dirtyEmployees.foldl
    (fun st eid => calcEmployeeUtilization (calcEmployeeOvertime st eid) eid) s
  let s2 := s1.dirtyProjects.foldl (fun st pid => calcProjectSkillsMatch st pid) s1
  clearDirtyTracking { s2 with isDirty := false }

/-- initialize (lines 46-89), renamed because the original name is a
reserved word here: fresh cache, rebuilt maps and indices, then a full
recompute. -/
def initializeInc (employees : List Employee) (projects : List Project)
    (assignments : List Assignment) : IncState :=
  let s0 : IncState :=
    { overtimeByEmployee := []
      utilizationByEmployee := []
      skillsMatchByProject := []
      isDirty := false
      dirtyEmployees := []
      dirtyProjects := []
      dirtyWeeks := []
      employees := employees.foldl (fun m e => SMap.set m e.id e) []
      projects := projects.foldl (fun m p => SMap.set m p.id p) []
      assignments := []
      assignmentsByEmployee := []
      assignmentsByProject := [] }
  let s1 := assignments.foldl
    (fun st a =>
      let am := SMap.set st.assignments a.id a
      let abe := SMap.set st.assignmentsByEmployee a.employeeId
        (SSet.insert (SMap.getD st.assignmentsByEmployee a.employeeId []) a.id)
      let abp := SMap.set st.assignmentsByProject a.projectId
        (SSet.insert (SMap.getD st.assignmentsByProject a.projectId []) a.id)
      { st with assignments := am, assignmentsByEmployee := abe, assignmentsByProject := abp })
    s0
  calculateAll s1

/-- updateAssignment (lines 94-137): no-op on a missing id, else mark
dirty, merge the patch, and move index entries when the employee or
project reference truthily changed. -/
def updateAssignment (s : IncState) (assignmentId : String) (updates : AssignmentPatch) :
    IncState :=
  match SMap.get? s.assignments assignmentId with
  | none => s
  | some existing =>
    let s := { s with dirtyEmployees := SSet.insert s.dirtyEmployees existing.employeeId }
    let employeeChanged :=
      patchTruthy updates.employeeId ∧ ¬ updates.employeeId = some existing.employeeId
    let s :=
      if employeeChanged then
        { s with dirtyEmployees := SSet.insert s.dirtyEmployees (updates.employeeId.getD existing.employeeId) }
      else s
    let s := { s with dirtyProjects := SSet.insert s.dirtyProjects existing.projectId }
    let projectChanged :=
      patchTruthy updates.projectId ∧ ¬ updates.projectId = some existing.projectId
    let s :=
      if projectChanged then
        { s with dirtyProjects := SSet.insert s.dirtyProjects (updates.projectId.getD existing.projectId) }
      else s
    let s := { s with dirtyWeeks := SSet.insert s.dirtyWeeks (incPeriodKey existing) }
    let s :=
      if patchTruthy updates.week then
        { s with dirtyWeeks := SSet.insert s.dirtyWeeks (updates.week.getD ("")) }
      else s
    let updated := applyPatch existing updates
    let s := { s with assignments := SMap.set s.assignments assignmentId updated }
    let s :=
      if employeeChanged then
        let abe :=
          match SMap.get? s.assignmentsByEmployee existing.employeeId with
          | some entry =>
              SMap.set s.assignmentsByEmployee existing.employeeId (SSet.del entry assignmentId)
          | none => s.assignmentsByEmployee
        let newEid := updates.employeeId.getD existing.employeeId
        let abe2 := SMap.set abe newEid (SSet.insert (SMap.getD abe newEid []) assignmentId)
        { s with assignmentsByEmployee := abe2 }
      else s
    let s :=
      if projectChanged then
        let abp :=
          match SMap.get? s.assignmentsByProject existing.projectId with
          | some entry =>
              SMap.set s.assignmentsByProject existing.projectId (SSet.del entry assignmentId)
          | none => s.assignmentsByProject
        let newPid := updates.projectId.getD existing.projectId
        let abp2 := SMap.set abp newPid (SSet.insert (SMap.getD abp newPid []) assignmentId)
        { s with assignmentsByProject := abp2 }
      else s
    { s with isDirty := true }

/-- addAssignment (lines 142-162). -/
def addAssignment (s : IncState) (assignment : Assignment) : IncState :=
  let s := { s with assignments := SMap.set s.assignments assignment.id assignment }
  let abe := SMap.set s.assignmentsByEmployee assignment.employeeId
    (SSet.insert (SMap.getD s.assignmentsByEmployee assignment.employeeId []) assignment.id)
  let s := { s with assignmentsByEmployee := abe }
  let abp := SMap.set s.assignmentsByProject assignment.projectId
    (SSet.insert (SMap.getD s.assignmentsByProject assignment.projectId []) assignment.id)
  let s := { s with assignmentsByProject := abp }
  { s with
      dirtyEmployees := SSet.insert s.dirtyEmployees assignment.employeeId
      dirtyProjects := SSet.insert s.dirtyProjects assignment.projectId
      dirtyWeeks := SSet.insert s.dirtyWeeks (incPeriodKey assignment)
      isDirty := true }

/-- removeAssignment (lines 167-184): no-op on a missing id. -/
def removeAssignment (s : IncState) (assignmentId : String) : IncState :=
  match SMap.get? s.assignments assignmentId with
  | none => s
  | some assignment =>
    let s := { s with
        dirtyEmployees := SSet.insert s.dirtyEmployees assignment.employeeId
        dirtyProjects := SSet.insert s.dirtyProjects assignment.projectId
        dirtyWeeks := SSet.insert s.dirtyWeeks (incPeriodKey assignment) }
    let abe :=
      match SMap.get? s.assignmentsByEmployee assignment.employeeId with
      | some entry =>
          SMap.set s.assignmentsByEmployee assignment.employeeId (SSet.del entry assignmentId)
      | none => s.assignmentsByEmployee
    let s := { s with assignmentsByEmployee := abe }
    let abp :=
      match SMap.get? s.assignmentsByProject assignment.projectId with
      | some entry =>
          SMap.set s.assignmentsByProject assignment.projectId (SSet.del entry assignmentId)
      | none => s.assignmentsByProject
    let s := { s with assignmentsByProject := abp }
    { s with assignments := SMap.del s.assignments assignmentId, isDirty := true }

/-- aggregateMetrics (lines 360-387): totals and cache-wide averages. -/
def aggregateMetrics (s : IncState) : Metrics :=
  let totalOvertime : ℚ :=
    s.overtimeByEmployee.foldl (fun t p => p.2.foldl (fun t2 q => t2 + q.2) t) 0
  let utilTotals : ℚ × ℕ :=
    s.utilizationByEmployee.foldl (fun p q => (p.1 + q.2, p.2 + 1)) ((0 : ℚ), 0)
  let skillTotals : ℚ × ℕ :=
    s.skillsMatchByProject.foldl (fun p q => (p.1 + q.2, p.2 + 1)) ((0 : ℚ), 0)
  { overtimeHours := jsRound totalOvertime
    resourceUtilization :=
      if utilTotals.2 > 0 then jsRound (utilTotals.1 / (utilTotals.2 : ℚ)) else 0
    skillsMatching :=
      if skillTotals.2 > 0 then jsRound (skillTotals.1 / (skillTotals.2 : ℚ)) else 0 }

/-- getMetrics (lines 189-195), state part: recalculate dirty parts
when the dirty flag is set. -/
def getMetricsState (s : IncState) : IncState :=
  if s.isDirty then recalculateDirty s else s

/-- getMetrics (lines 189-195), value part. -/
def getMetricsInc (s : IncState) : Metrics :=
  aggregateMetrics (getMetricsState s)

/-! ## Placeholder optimizer (src/unnamed/part_003)

The function is async in the source only to allow progress callbacks;
it performs no real asynchrony, so it is embedded as a pure function
and the progress callback is dropped.  The algorithm selector is
accepted but never dispatched on, exactly as in the source. -/

/-- The placeholder test on an assignment employee reference:
!employeeId, 'Placeholder', 'placeholder', or 'Placeholder N'
(part_003 lines 46-52, 300-304, 440-444). -/
def isPlaceholderId (eid : String) : Bool :=
  eid = ("") ∨ eid = ("Placeholder") ∨ eid = ("placeholder")
    ∨ String.startsWith eid ("Placeholder ")

/-- The candidate filter of findBestEmployee (lines 342-347): virtual
placeholder employees are excluded with a lowercase prefix test. -/
def notVirtualPlaceholder (e : Employee) : Bool :=
  ¬ e.id = ("placeholder") ∧ ¬ e.id = ("Placeholder")
    ∧ ¬ String.startsWith e.id ("placeholder")

/-- The weight triple handed to the optimizer. -/
structure OptimizationWeights where
  overtime : ℚ
  utilization : ℚ
  skills : ℚ
deriving DecidableEq, Repr

/-- The inert strategy selector: 'genetic' | 'annealing' | 'constraint'. -/
inductive Alg where
  | genetic
  | annealing
  | constr
deriving DecidableEq, Repr

/-- PlaceholderSuggestion records (part_003 lines 10-20). -/
structure PlaceholderSuggestion where
  projectId : String
  projectName : String
  week : String
  originalHours : ℚ
  suggestedEmployeeId : String
  suggestedEmployeeName : String
  overtimeScore : ℚ
  utilizationScore : ℚ
  skillsScore : ℚ
deriving DecidableEq, Repr

/-- The metrics block of an OptimizationResult. -/
structure OptMetrics where
  currentOvertimeHours : ℚ
  currentUtilization : ℤ
  currentSkillsMatch : ℚ
  predictedOvertimeHours : ℚ
  predictedUtilization : ℤ
  predictedSkillsMatch : ℚ
deriving DecidableEq, Repr

/-- OptimizationResult (part_003 lines 22-33). -/
structure OptimizationResult where
  suggestions : List PlaceholderSuggestion
  totalScore : ℚ
  metrics : OptMetrics
deriving DecidableEq, Repr

/-- calculateTotalOvertime (part_003 lines 295-331): the batch period
bucketing restricted to non-placeholder assignments, not rounded. -/
def calculateTotalOvertime (employees : List Employee) (assignments : List Assignment) : ℚ :=
  overtimeFromBuckets employees
    (hoursByPeriodIf (fun a => ! isPlaceholderId a.employeeId) batchPeriodKey assignments)

/-- The employee's total hours across the entire dataset, used by both
findBestEmployee and calculateAssignmentScores (lines 357-359, 402-404). -/
def currentHoursOf (data : ScheduleData) (employeeId : String) : ℚ :=
  ((data.assignments.filter (fun a => a.employeeId = employeeId)).map
    (fun a => a.hours)).sum

/-- The selection score of one candidate inside findBestEmployee
(part_003 lines 355-384).  bestScore starts at -Infinity, so the first
candidate always becomes the provisional best; a later candidate
replaces it only on a strictly greater score.  When maxHours = 0 the JS
utilizationRatio is Infinity or NaN and fails ratio ≤ 1, adding
nothing; here division by zero yields ratio 0 and adds
utilization × 0, the same score. -/
def candidateScore (placeholder : Assignment) (project : Project)
    (data : ScheduleData) (weights : OptimizationWeights)
    (skillScoreMatrix : SMap (SMap ℚ)) (e : Employee) : ℚ :=
  let currentHours := currentHoursOf data e.id
  let wouldCauseOvertime := currentHours + placeholder.hours > e.maxHours
  let skillScore := SMap.getD (SMap.getD skillScoreMatrix e.id []) project.id 0
  let score1 : ℚ :=
    if wouldCauseOvertime then
      0 - weights.overtime * (currentHours + placeholder.hours - e.maxHours)
    else 0
  let utilizationFrac := (currentHours + placeholder.hours) / e.maxHours
  let score2 := if utilizationFrac ≤ 1 then score1 + weights.utilization * utilizationFrac
    else score1
  score2 + weights.skills * skillScore

/-- One step of the running best of the findBestEmployee loop: the
first candidate beats the -Infinity start, later ones need a strictly
greater score (ties keep the earlier candidate). -/
def bestStep (score : Employee → ℚ) (acc : Option (Employee × ℚ)) (e : Employee) :
    Option (Employee × ℚ) :=
  match acc with
  | none => some (e, score e)
  | some best0 => if score e > best0.2 then some (e, score e) else some best0

/-- findBestEmployee (part_003 lines 333-392). -/
def findBestEmployee (placeholder : Assignment) (project : Project)
    (data : ScheduleData) (weights : OptimizationWeights)
    (skillScoreMatrix : SMap (SMap ℚ)) (excludedEmployees : SSet) : Option Employee :=
  let candidates := data.employees.filter
    (fun e => notVirtualPlaceholder e && ! SSet.has excludedEmployees e.id)
  let best := candidates.foldl
    (bestStep (candidateScore placeholder project data weights skillScoreMatrix)) none
  best.map (fun p => p.1)

/-- calculateAssignmentScores (part_003 lines 394-425): the three
reporting scores for a chosen employee. -/
def calculateAssignmentScores (employee : Employee) (assignment : Assignment)
    (project : Project) (data : ScheduleData)
    (skillScoreMatrix : SMap (SMap ℚ)) : ℚ × ℚ × ℚ :=
  let currentHours := currentHoursOf data employee.id
  let newTotalHours := currentHours + assignment.hours
  let overtimeScore : ℚ :=
    if newTotalHours > employee.maxHours then 0 - (newTotalHours - employee.maxHours) else 0
  let utilizationScore := min 100 (newTotalHours / employee.maxHours * 100)
  let skillScore := SMap.getD (SMap.getD skillScoreMatrix employee.id []) project.id 0 * 100
  (overtimeScore, utilizationScore, skillScore)

/-- The (projectId, week||date) grouping key of a placeholder
(part_003 line 86). -/
def groupKeyOf (ph : Assignment) : String :=
  ph.projectId ++ ("-") ++ jsOr ph.week ph.date

/-- The placeholderGroups map (part_003 lines 84-91). -/
def placeholderGroupsOf (placeholders : List Assignment) : SMap (List Assignment) :=
  placeholders.foldl
    (fun m ph => SMap.set m (groupKeyOf ph) (SMap.getD m (groupKeyOf ph) [] ++ [ph])) []

/-- The suggestion record emitted for a chosen employee
(part_003 lines 130-140). -/
def mkSuggestion (project : Project) (placeholder : Assignment) (bestEmployee : Employee)
    (data : ScheduleData) (skillScoreMatrix : SMap (SMap ℚ)) : PlaceholderSuggestion :=
  let scores := calculateAssignmentScores bestEmployee placeholder project data skillScoreMatrix
  { projectId := project.id
    projectName := project.name
    week := placeholder.week
    originalHours := placeholder.hours
    suggestedEmployeeId := bestEmployee.id
    suggestedEmployeeName := bestEmployee.name
    overtimeScore := scores.1
    utilizationScore := scores.2.1
    skillsScore := scores.2.2 }

/-- The inner per-group loop of optimizeSchedule (part_003 lines
105-147): process the group's placeholders in order, keeping a set of
employees already used in this group; a placeholder with no eligible
employee is skipped silently. -/
def processGroupGo (data : ScheduleData) (weights : OptimizationWeights)
    (skillScoreMatrix : SMap (SMap ℚ)) (project : Project) :
    List Assignment → SSet → List PlaceholderSuggestion
  | [], _ => []
  | ph :: rest, used =>
    match findBestEmployee ph project data weights skillScoreMatrix used with
    | none => processGroupGo data weights skillScoreMatrix project rest used
    | some bestEmployee =>
        mkSuggestion project ph bestEmployee data skillScoreMatrix ::
          processGroupGo data weights skillScoreMatrix project rest
            (SSet.insert used bestEmployee.id)

/-- One project-period group of optimizeSchedule, with the
already-used set seeded empty (part_003 line 102). -/
def processGroup (data : ScheduleData) (weights : OptimizationWeights)
    (skillScoreMatrix : SMap (SMap ℚ)) (project : Project)
    (placeholders : List Assignment) : List PlaceholderSuggestion :=
  processGroupGo data weights skillScoreMatrix project placeholders []

/-- The assignment synthesized from a suggestion by applysuggestions
(part_003 lines 457-465); the week doubles as the date. -/
def suggestionToAssignment (s : PlaceholderSuggestion) : Assignment :=
  { id := s.suggestedEmployeeId ++ ("-") ++ s.projectId ++ ("-") ++ s.week
    employeeId := s.suggestedEmployeeId
    projectId := s.projectId
    week := s.week
    date := s.week
    hours := s.originalHours }

/-- applysuggestions (part_003 lines 427-469): drop placeholders whose
projectId-week key is in the replaced set, keep everything else, then
append one synthesized assignment per suggestion. -/
def applysuggestions (assignments : List Assignment)
    (suggestions : List PlaceholderSuggestion) : List Assignment :=
  let replacedPlaceholders := suggestions.foldl
    (fun s sg => SSet.insert s (sg.projectId ++ ("-") ++ sg.week)) []
  let filtered := assignments.filter
    (fun a =>
      if isPlaceholderId a.employeeId then
        ! SSet.has replacedPlaceholders (a.projectId ++ ("-") ++ jsOr a.week a.date)
      else true)
  filtered ++ suggestions.map suggestionToAssignment

/-- calculateTotalScore (part_003 lines 471-481). -/
def calculateTotalScore (suggestions : List PlaceholderSuggestion)
    (weights : OptimizationWeights) : ℚ :=
  suggestions.foldl
    (fun total s =>
      total + s.overtimeScore * weights.overtime + s.utilizationScore * weights.utilization
        + s.skillsScore * weights.skills) 0

/-- The metrics block computed from a current and a predicted
assignment list (part_003 lines 59-72 and 158-171). -/
def optMetricsOf (data : ScheduleData) (predicted : List Assignment)
    (dateRange : Option DateRange) : OptMetrics :=
  { currentOvertimeHours := calculateTotalOvertime data.employees data.assignments
    currentUtilization := calculateResourceUtilization data.employees data.assignments dateRange
    currentSkillsMatch :=
      calculateSkillsMatch data.assignments (mapById data.employees) (projById data.projects)
    predictedOvertimeHours := calculateTotalOvertime data.employees predicted
    predictedUtilization := calculateResourceUtilization data.employees predicted dateRange
    predictedSkillsMatch :=
      calculateSkillsMatch predicted (mapById data.employees) (projById data.projects) }

/-- optimizeSchedule (part_003 lines 35-173).  A group whose first
placeholder references an unknown project is skipped entirely
(line 98); groups are processed in map insertion order. -/
def optimizeSchedule (data : ScheduleData) (alg : Alg)
    (weights : OptimizationWeights) (dateRange : Option DateRange) : OptimizationResult :=
  let skillScoreMatrix := createSkillScoreMatrix data.employees data.projects
  let placeholderAssignments := data.assignments.filter (fun a => isPlaceholderId a.employeeId)
  if placeholderAssignments.length = 0 then
    { suggestions := []
      totalScore := 0
      metrics := optMetricsOf data data.assignments dateRange }
  else
    let projectMap := projById data.projects
    let groups := placeholderGroupsOf placeholderAssignments
    let suggestions := groups.foldl
      (fun acc g =>
        match g.2 with
        | [] => acc
        | firstPlaceholder :: _ =>
          match SMap.get? projectMap firstPlaceholder.projectId with
          | none => acc
          | some project => acc ++ processGroup data weights skillScoreMatrix project g.2)
      []
    let predictedAssignments := applysuggestions data.assignments suggestions
    { suggestions := suggestions
      totalScore := calculateTotalScore suggestions weights
      metrics := optMetricsOf data predictedAssignments dateRange }

/-! ## Spec-side definitions

Definitions in this section follow the wording of the specification
(spec.md sections 4.2, 4.4 and 8) rather than the source, and are
compared with the embedded source functions by the theorems below. -/

/-- Spec wording: the hours assigned to one employee id. -/
def specAssignedHoursOf (assignments : List Assignment) (eid : String) : ℚ :=
  ((assignments.filter (fun a => a.employeeId == eid)).map (fun a => a.hours)).sum

/-- Spec wording: totalAssignedHours, summed over the employee list. -/
def specTotalAssignedHours (employees : List Employee) (assignments : List Assignment) : ℚ :=
  (employees.map (fun e => specAssignedHoursOf assignments e.id)).sum

/-- Spec wording: count of distinct period keys present across all
assignments. -/
def specDistinctPeriodCount (assignments : List Assignment) : ℕ :=
  ((assignments.map batchPeriodKey).dedup).length

/-- Spec wording: numPeriods is max(1, inclusive week span) when a
range is supplied, else max(1, distinct period keys). -/
def specNumPeriods (assignments : List Assignment) (dateRange : Option DateRange) : ℤ :=
  match dateRange with
  | some r => max 1 (differenceInWeeks r.endD r.start + 1)
  | none => max 1 (specDistinctPeriodCount assignments : ℤ)

/-- Spec wording: round(100 × totalAssignedHours / (Σ maxHours ×
numPeriods)), 0 for an empty employee list. -/
def specUtilization (employees : List Employee) (assignments : List Assignment)
    (dateRange : Option DateRange) : ℤ :=
  if employees = [] then 0
  else
    jsRound (100 * specTotalAssignedHours employees assignments /
      ((employees.map (fun e => e.maxHours)).sum * (specNumPeriods assignments dateRange : ℚ)))

/-- Spec wording: the employee's non-placeholder assignments. -/
def specEmployeeAssignments (assignments : List Assignment) (eid : String) : List Assignment :=
  assignments.filter (fun a => ! isPlaceholderId a.employeeId && a.employeeId == eid)

/-- Spec wording: the distinct periods the employee appears in
(placeholders excluded). -/
def specPeriodsOf (assignments : List Assignment) (eid : String) : List String :=
  ((specEmployeeAssignments assignments eid).map batchPeriodKey).dedup

/-- Spec wording: the employee's summed hours in one period. -/
def specPeriodHours (assignments : List Assignment) (eid : String) (w : String) : ℚ :=
  (((specEmployeeAssignments assignments eid).filter (fun a => batchPeriodKey a == w)).map
    (fun a => a.hours)).sum

/-- Spec wording: total overtime = Σ over employees and their periods
of max(0, periodHours − maxHours), placeholders excluded. -/
def specTotalOvertime (employees : List Employee) (assignments : List Assignment) : ℚ :=
  (employees.map (fun e =>
    ((specPeriodsOf assignments e.id).map
      (fun w => max 0 (specPeriodHours assignments e.id w - e.maxHours))).sum)).sum

/-- Spec wording (claim C3, amended): the predicted assignment list
described directly by membership, with the replaced-placeholder test
spelled as an existential over the suggestion list. -/
def applySuggestionsSpec (assignments : List Assignment)
    (suggestions : List PlaceholderSuggestion) : List Assignment :=
  assignments.filter
    (fun a =>
      if isPlaceholderId a.employeeId then
        ! suggestions.any
          (fun sg => (sg.projectId ++ ("-") ++ sg.week)
            == (a.projectId ++ ("-") ++ jsOr a.week a.date))
      else true)
  ++ suggestions.map suggestionToAssignment

/-- The distinct employee ids that pass the optimizer's virtual
placeholder filter: the eligible pool of one fresh group. -/
def eligibleIds (data : ScheduleData) : List String :=
  ((data.employees.filter notVirtualPlaceholder).map (fun e => e.id)).dedup

/-! ## Concrete fixtures used by counterexamples and witnesses -/

/-- C1 failing input: an assignment whose employee and project ids
resolve to nothing. -/
def fxA1 : Assignment :=
  { id := "a1", employeeId := "E1x", projectId := "P1x", hours := 1, week := "w1", date := "" }

/-- C4 counterexample input: same shape as fxA1, separate instance. -/
def fxA4 : Assignment :=
  { id := "a4", employeeId := "E4x", projectId := "P4x", hours := 2, week := "w4", date := "" }

/-- C4 witness assignment: an employee id absent from an empty map. -/
def fxA4w : Assignment :=
  { id := "a4w", employeeId := "E4w", projectId := "P4w", hours := 3, week := "w", date := "" }

/-- A 40-hour employee with no skills. -/
def fxE40 : Employee := { id := "E", name := "E", maxHours := 40, skills := [] }

/-- C2: 30 hours, same week label W1, date of the first Monday. -/
def fxA2a : Assignment :=
  { id := "c1", employeeId := "E", projectId := "p1", hours := 30, week := "W1",
    date := "2024-01-01" }

/-- C2: 30 hours, same week label W1, date of the second Monday. -/
def fxA2b : Assignment :=
  { id := "c2", employeeId := "E", projectId := "p1", hours := 30, week := "W1",
    date := "2024-01-08" }

/-- C5/C6: 10 hours in week1. -/
def fxA5a : Assignment :=
  { id := "1", employeeId := "E", projectId := "p1", hours := 10, week := "week1", date := "" }

/-- C5/C6: 50 hours in week2. -/
def fxA5b : Assignment :=
  { id := "2", employeeId := "E", projectId := "p1", hours := 50, week := "week2", date := "" }

/-- C6: 30 hours in week1 (under capacity per period). -/
def fxA6a : Assignment :=
  { id := "1", employeeId := "E", projectId := "p1", hours := 30, week := "week1", date := "" }

/-- C6: 30 hours in week2 (under capacity per period). -/
def fxA6b : Assignment :=
  { id := "2", employeeId := "E", projectId := "p1", hours := 30, week := "week2", date := "" }

/-- C6 counterexample: a virtual placeholder employee with no
capacity, present in the employee list. -/
def fxEP0 : Employee := { id := "Placeholder", name := "X", maxHours := 0, skills := [] }

/-- C6 counterexample: a placeholder assignment of 10 hours. -/
def fxPh6 : Assignment :=
  { id := "z", employeeId := "Placeholder", projectId := "q", hours := 10, week := "w", date := "" }

/-- C10 counterexample: a virtual placeholder employee with capacity 1. -/
def fxEP1 : Employee := { id := "Placeholder", name := "X", maxHours := 1, skills := [] }

/-- C10 counterexample: a placeholder assignment of 100 hours in a
fresh period. -/
def fxPhX : Assignment :=
  { id := "z", employeeId := "Placeholder", projectId := "q", hours := 100, week := "w1",
    date := "" }

/-- C10 witness: a placeholder assignment in a period fresh for fxA5a. -/
def fxPhW : Assignment :=
  { id := "z", employeeId := "Placeholder", projectId := "q", hours := 7, week := "week9",
    date := "" }

/-- An ordinary employee for the optimizer fixtures. -/
def fxE1 : Employee := { id := "E1", name := "N1", maxHours := 40, skills := [] }

/-- A second ordinary employee for the optimizer fixtures. -/
def fxE2 : Employee := { id := "E2", name := "N2", maxHours := 40, skills := [] }

/-- A project with no required skills. -/
def fxP : Project :=
  { id := "P", name := "PN", startDate := 0, endDate := 10, requiredSkills := none }

/-- C3: a placeholder carrying only a date, no legacy week label. -/
def fxPh3 : Assignment :=
  { id := "a1", employeeId := "Placeholder", projectId := "P", hours := 5, week := "", date := "D" }

/-- C3 dataset: one employee, one project, one date-only placeholder. -/
def fxD3 : ScheduleData :=
  { employees := [fxE1], projects := [fxP], assignments := [fxPh3], skills := [], teams := [] }

/-- Unit weight triple. -/
def fxW : OptimizationWeights := { overtime := 1, utilization := 1, skills := 1 }

/-- C3: the suggestion the optimizer emits for fxD3. -/
def fxS3 : PlaceholderSuggestion :=
  { projectId := "P", projectName := "PN", week := "", originalHours := 5,
    suggestedEmployeeId := "E1", suggestedEmployeeName := "N1",
    overtimeScore := 0, utilizationScore := 25/2, skillsScore := 0 }

/-- C7 counterexample dataset: one placeholder whose project id
resolves to nothing, one eligible employee. -/
def fxD7 : ScheduleData :=
  { employees := [fxE1], projects := [], assignments := [fxPh3], skills := [], teams := [] }

/-- C7 witness: first of two placeholders in one project-week group. -/
def fxPh7a : Assignment :=
  { id := "a1", employeeId := "Placeholder 1", projectId := "P", hours := 5, week := "W1",
    date := "" }

/-- C7 witness: second placeholder of the same group. -/
def fxPh7b : Assignment :=
  { id := "a2", employeeId := "Placeholder 2", projectId := "P", hours := 5, week := "W1",
    date := "" }

/-- C7 witness dataset: two placeholders, two eligible employees. -/
def fxD7b : ScheduleData :=
  { employees := [fxE1, fxE2], projects := [fxP], assignments := [fxPh7a, fxPh7b],
    skills := [], teams := [] }

/-- C8 witness: an ordinary assignment, no placeholders anywhere. -/
def fxA8 : Assignment :=
  { id := "a1", employeeId := "E1", projectId := "P", hours := 5, week := "W1", date := "" }

/-- C8 witness dataset. -/
def fxD8 : ScheduleData :=
  { employees := [fxE1], projects := [fxP], assignments := [fxA8], skills := [], teams := [] }

/-- C9/C4 witness: a literal cache state holding one assignment. -/
def fxS9 : IncState :=
  { overtimeByEmployee := [], utilizationByEmployee := [], skillsMatchByProject := [],
    isDirty := false, dirtyEmployees := [], dirtyProjects := [], dirtyWeeks := [],
    employees := [], projects := [], assignments := [(("a1"), fxA8)],
    assignmentsByEmployee := [(("E1"), [("a1")])],
    assignmentsByProject := [(("P"), [("a1")])] }

/-! ## Lemmas on the map, set and fold models -/

set_option maxHeartbeats 2000000


theorem SMap.get?_eq_none {α : Type} (m : SMap α) (k : String) :
    SMap.hasKey m k = false ↔ SMap.get? m k = none := by
  induction m with
  | nil => simp [SMap.hasKey, SMap.get?]
  | cons p t ih =>
      by_cases h : p.1 = k <;>
        simp [SMap.hasKey, SMap.get?, h] at ih ⊢ <;> simpa [SMap.hasKey] using ih

theorem SMap.get?_map_replace_ne {α : Type} (m : SMap α) (k k' : String) (v : α)
    (h : ¬ k = k') :
    SMap.get? (m.map (fun p => if p.1 = k then (k, v) else p)) k' = SMap.get? m k' := by
  have h' : ¬ k' = k := fun hh => h hh.symm
  induction m with
  | nil => simp [SMap.get?]
  | cons p t ih =>
      by_cases hp : p.1 = k
      · simp [SMap.get?, hp, h, ih]
      · by_cases hp' : p.1 = k' <;> simp [SMap.get?, hp, hp', ih, h']

theorem SMap.get?_map_replace_self {α : Type} (m : SMap α) (k : String) (v : α)
    (h : SMap.hasKey m k = true) :
    SMap.get? (m.map (fun p => if p.1 = k then (k, v) else p)) k = some v := by
  induction m with
  | nil => simp [SMap.hasKey] at h
  | cons p t ih =>
      by_cases hp : p.1 = k
      · simp [SMap.get?, hp]
      · simp [SMap.hasKey, hp] at h
        simp [SMap.get?, hp, ih, h, SMap.hasKey]

theorem SMap.get?_append {α : Type} (m₁ m₂ : SMap α) (k : String) :
    SMap.get? (m₁ ++ m₂) k =
      match SMap.get? m₁ k with
      | some v => some v
      | none => SMap.get? m₂ k := by
  induction m₁ with
  | nil => simp [SMap.get?]
  | cons p t ih =>
      by_cases hp : p.1 = k <;> simp [SMap.get?, hp, ih]

theorem SMap.get?_set {α : Type} (m : SMap α) (k k' : String) (v : α) :
    SMap.get? (SMap.set m k v) k' = if k = k' then some v else SMap.get? m k' := by
  unfold SMap.set
  by_cases hk : SMap.hasKey m k
  · simp only [hk, if_true]
    by_cases he : k = k'
    · subst he
      simp [SMap.get?_map_replace_self m k v hk]
    · simp [he, SMap.get?_map_replace_ne m k k' v he]
  · simp only [hk, Bool.false_eq_true, if_false]
    have hnone : SMap.get? m k = none := (SMap.get?_eq_none m k).mp (by simpa using hk)
    rw [SMap.get?_append]
    by_cases he : k = k'
    · subst he
      simp [hnone, SMap.get?]
    · have h' : ¬ k' = k := fun hh => he hh.symm
      cases hv : SMap.get? m k' <;> simp [SMap.get?, he, h']

theorem SMap.getD_set {α : Type} (m : SMap α) (k k' : String) (v d : α) :
    SMap.getD (SMap.set m k v) k' d = if k = k' then v else SMap.getD m k' d := by
  unfold SMap.getD
  rw [SMap.get?_set]
  by_cases he : k = k' <;> simp [he]

theorem SMap.keys_map_replace {α : Type} (m : SMap α) (k : String) (v : α) :
    SMap.keys (m.map (fun p => if p.1 = k then (k, v) else p)) = SMap.keys m := by
  unfold SMap.keys
  rw [List.map_map]
  refine List.map_congr_left ?_
  intro p _
  by_cases hp : p.1 = k <;> simp [Function.comp, hp]

theorem SMap.keys_set {α : Type} (m : SMap α) (k : String) (v : α) :
    SMap.keys (SMap.set m k v) =
      if SMap.hasKey m k then SMap.keys m else SMap.keys m ++ [k] := by
  unfold SMap.set
  by_cases hk : SMap.hasKey m k
  · simp only [hk, if_true]
    exact SMap.keys_map_replace m k v
  · simp only [hk, Bool.false_eq_true, if_false]
    simp [SMap.keys]

theorem SMap.hasKey_iff_mem_keys {α : Type} (m : SMap α) (k : String) :
    SMap.hasKey m k = true ↔ k ∈ SMap.keys m := by
  induction m with
  | nil => simp [SMap.hasKey, SMap.keys]
  | cons p t ih =>
      by_cases hp : p.1 = k <;> simp [SMap.hasKey, SMap.keys, hp, ih]
      exact fun h => absurd h.symm hp
  
theorem SMap.keys_nodup_set {α : Type} (m : SMap α) (k : String) (v : α)
    (h : (SMap.keys m).Nodup) : (SMap.keys (SMap.set m k v)).Nodup := by
  rw [SMap.keys_set]
  by_cases hk : SMap.hasKey m k
  · simpa [hk] using h
  · have : k ∉ SMap.keys m := fun hm => hk ((SMap.hasKey_iff_mem_keys m k).mpr hm)
    simp [hk, List.nodup_append, h, this]

theorem SSet.has_iff_mem (s : SSet) (k : String) : SSet.has s k = true ↔ k ∈ s := by
  induction s with
  | nil => simp [SSet.has]
  | cons x t ih =>
      by_cases hx : x = k
      · simp [SSet.has, hx]
      · have hx' : ¬ k = x := fun h => hx h.symm
        simp [SSet.has, hx, hx', ih]

theorem SSet.toFinset_insert (s : SSet) (k : String) :
    (SSet.insert s k).toFinset = Insert.insert k s.toFinset := by
  unfold SSet.insert
  by_cases h : SSet.has s k
  · have : k ∈ s := (SSet.has_iff_mem s k).mp h
    simp [h, Finset.insert_eq_self.mpr (List.mem_toFinset.mpr this)]
  · simp [h]
    ext x
    simp [or_comm]

theorem SSet.nodup_insert (s : SSet) (k : String) (h : s.Nodup) :
    (SSet.insert s k).Nodup := by
  unfold SSet.insert
  by_cases hk : SSet.has s k
  · simpa [hk] using h
  · have : k ∉ s := fun hm => hk ((SSet.has_iff_mem s k).mpr hm)
    simp [hk, List.nodup_append, h, this]

theorem SSet.foldl_insert_length (l : List String) (s : SSet) (h : s.Nodup) :
    (l.foldl SSet.insert s).length = (s.toFinset ∪ l.toFinset).card := by
  induction l generalizing s with
  | nil => simp [List.toFinset_card_of_nodup h]
  | cons a t ih =>
      rw [List.foldl_cons, ih (SSet.insert s a) (SSet.nodup_insert s a h)]
      congr 1
      rw [SSet.toFinset_insert]
      ext x
      simp


theorem foldl_add_map {α : Type} (f : α → ℚ) (l : List α) (c : ℚ) :
    l.foldl (fun s x => s + f x) c = c + (l.map f).sum := by
  induction l generalizing c with
  | nil => simp
  | cons a t ih => simp [ih, add_assoc]

theorem ratFloor_eq_floor (q : ℚ) : ratFloor q = ⌊q⌋ := by
  rw [Rat.floor_def, ratFloor, Int.fdiv_eq_ediv]
  exact Int.ofNat_nonneg q.den

theorem jsRound_mono {a b : ℚ} (h : a ≤ b) : jsRound a ≤ jsRound b := by
  unfold jsRound
  rw [ratFloor_eq_floor, ratFloor_eq_floor]
  exact Int.floor_le_floor (by linarith)

theorem sumHoursByEmployee_getD (assignments : List Assignment) (k : String) :
    SMap.getD (sumHoursByEmployee assignments) k 0 = specAssignedHoursOf assignments k := by
  suffices h : ∀ (m : SMap ℚ),
      SMap.getD (assignments.foldl
        (fun m a => SMap.set m a.employeeId (SMap.getD m a.employeeId 0 + a.hours)) m) k 0 =
      SMap.getD m k 0 + specAssignedHoursOf assignments k by
    simpa [sumHoursByEmployee, SMap.getD, SMap.get?] using h []
  induction assignments with
  | nil => intro m; simp [specAssignedHoursOf]
  | cons a t ih =>
      intro m
      rw [List.foldl_cons, ih]
      rw [SMap.getD_set]
      by_cases he : a.employeeId = k
      · simp [specAssignedHoursOf, he]
        ring
      · have he' : ¬ (a.employeeId == k) = true := by simpa using he
        simp [specAssignedHoursOf, he, he']

theorem periodKeySet_length (assignments : List Assignment) :
    (periodKeySet assignments).length = specDistinctPeriodCount assignments := by
  unfold periodKeySet specDistinctPeriodCount
  rw [← List.foldl_map (f := batchPeriodKey) (g := SSet.insert)]
  rw [SSet.foldl_insert_length _ _ (by simp)]
  simp [List.card_toFinset]

theorem sum_map_mul_const {α : Type} (f : α → ℚ) (c : ℚ) (l : List α) :
    (l.map (fun x => f x * c)).sum = (l.map f).sum * c := by
  induction l with
  | nil => simp
  | cons a t ih => simp [ih, add_mul]

theorem jsRound_zero : jsRound 0 = 0 := by
  rw [jsRound, ratFloor_eq_floor]
  rw [zero_add, Int.floor_eq_zero_iff]
  constructor <;> norm_num

theorem specNumPeriods_pos (assignments : List Assignment) (dateRange : Option DateRange) :
    1 ≤ specNumPeriods assignments dateRange := by
  unfold specNumPeriods
  cases dateRange <;> simp

theorem calcRU_core (es : List Employee) (as : List Assignment) (P : ℤ) (hP : 1 ≤ P)
    (h : ∀ e ∈ es, 0 ≤ e.maxHours) :
    (if es.foldl (fun s e => s + e.maxHours * (P : ℚ)) 0 > 0 then
      jsRound (es.foldl (fun s e => s + SMap.getD (sumHoursByEmployee as) e.id 0) 0 /
        es.foldl (fun s e => s + e.maxHours * (P : ℚ)) 0 * 100)
    else 0) =
    jsRound (100 * specTotalAssignedHours es as /
      ((es.map (fun e => e.maxHours)).sum * (P : ℚ))) := by
  have hcap : es.foldl (fun s e => s + e.maxHours * (P : ℚ)) 0 =
      (es.map (fun e => e.maxHours)).sum * (P : ℚ) := by
    rw [foldl_add_map (fun e => e.maxHours * (P : ℚ)) es 0, zero_add]
    exact sum_map_mul_const (fun e => e.maxHours) (P : ℚ) es
  have hassigned : es.foldl (fun s e => s + SMap.getD (sumHoursByEmployee as) e.id 0) 0 =
      specTotalAssignedHours es as := by
    rw [foldl_add_map (fun e => SMap.getD (sumHoursByEmployee as) e.id 0) es 0, zero_add]
    unfold specTotalAssignedHours
    congr 1
    exact List.map_congr_left (fun e _ => sumHoursByEmployee_getD as e.id)
  rw [hcap, hassigned]
  set A : ℚ := specTotalAssignedHours es as
  set M : ℚ := (es.map (fun e => e.maxHours)).sum with hM
  by_cases hpos : M * (P : ℚ) > 0
  · rw [if_pos hpos]
    congr 1
    ring
  · rw [if_neg hpos]
    have hMnn : 0 ≤ M := by
      rw [hM]
      apply List.sum_nonneg
      intro x hx
      obtain ⟨e, he, rfl⟩ := List.mem_map.mp hx
      exact h e he
    have hPpos : (0 : ℚ) < (P : ℚ) := by exact_mod_cast lt_of_lt_of_le one_pos hP
    have hzero : M * (P : ℚ) = 0 := by
      rcases lt_or_eq_of_le (mul_nonneg hMnn (le_of_lt hPpos)) with hlt | heq
      · exact absurd hlt hpos
      · exact heq.symm
    rw [hzero, div_zero, jsRound_zero]

theorem calcRU_eq_spec (es : List Employee) (as : List Assignment) (dr : Option DateRange)
    (h : ∀ e ∈ es, 0 ≤ e.maxHours) :
    calculateResourceUtilization es as dr = specUtilization es as dr := by
  unfold calculateResourceUtilization specUtilization
  by_cases hes : es = []
  · simp [hes]
  · cases dr with
    | none =>
        simp only [hes, if_false, specNumPeriods, periodKeySet_length]
        exact calcRU_core es as (max 1 (specDistinctPeriodCount as : ℤ)) (le_max_left 1 _) h
    | some r =>
        simp only [hes, if_false, specNumPeriods]
        exact calcRU_core es as (max 1 (differenceInWeeks r.endD r.start + 1))
          (le_max_left 1 _) h

theorem SMap.get?_of_mem_nodup {α : Type} (m : SMap α) (q : String × α)
    (hq : q ∈ m) (h : (SMap.keys m).Nodup) : SMap.get? m q.1 = some q.2 := by
  induction m with
  | nil => simp at hq
  | cons r t ih =>
      rcases List.mem_cons.mp hq with hh | ht
      · subst hh
        simp [SMap.get?]
      · have hne : ¬ r.1 = q.1 := by
          intro he
          have : q.1 ∈ SMap.keys t := List.mem_map.mpr ⟨q, ht, rfl⟩
          rw [← he] at this
          exact (List.nodup_cons.mp h).1 this
        simp [SMap.get?, hne]
        exact ih ht (List.nodup_cons.mp h).2

theorem foldl_add_if {α : Type} (P : α → Prop) [DecidablePred P] (g : α → ℚ)
    (l : List α) (c : ℚ) :
    l.foldl (fun t q => if P q then t + g q else t) c =
      c + (l.map (fun q => if P q then g q else 0)).sum := by
  induction l generalizing c with
  | nil => simp
  | cons a t ih => by_cases ha : P a <;> simp [ha, ih, add_assoc]

/-- The positive-exceedance sum over an association list with
duplicate-free keys equals the same sum over its key list. -/
theorem SMap.exceed_sum_eq_keys_sum (pm : SMap ℚ) (mh : ℚ)
    (h : (SMap.keys pm).Nodup) :
    (pm.map (fun q => if q.2 > mh then q.2 - mh else 0)).sum =
      ((SMap.keys pm).map
        (fun w => if SMap.getD pm w 0 > mh then SMap.getD pm w 0 - mh else 0)).sum := by
  unfold SMap.keys
  rw [List.map_map]
  apply congrArg
  apply List.map_congr_left
  intro q hq
  have := SMap.get?_of_mem_nodup pm q hq h
  simp [Function.comp, SMap.getD, this]

/-- Sums of one function over two duplicate-free lists with the same
element set agree. -/
theorem sum_map_eq_of_toFinset_eq (l₁ l₂ : List String) (g : String → ℚ)
    (h₁ : l₁.Nodup) (h₂ : l₂.Nodup) (h : l₁.toFinset = l₂.toFinset) :
    (l₁.map g).sum = (l₂.map g).sum := by
  rw [← List.sum_toFinset g h₁, ← List.sum_toFinset g h₂, h]

theorem SMap.toFinset_keys_set {α : Type} (m : SMap α) (k : String) (v : α) :
    (SMap.keys (SMap.set m k v)).toFinset = Insert.insert k (SMap.keys m).toFinset := by
  rw [SMap.keys_set]
  by_cases hk : SMap.hasKey m k
  · have : k ∈ SMap.keys m := (SMap.hasKey_iff_mem_keys m k).mp hk
    simp [hk, Finset.insert_eq_self.mpr (List.mem_toFinset.mpr this)]
  · simp [hk]
    ext x
    simp [or_comm]

theorem hoursByPeriodIf_getD (p : Assignment → Bool) (key : Assignment → String)
    (as : List Assignment) :
    ∀ (outer : SMap (SMap ℚ)) (e w : String),
    SMap.getD (SMap.getD (as.foldl
      (fun outer a =>
        if p a then
          SMap.set outer a.employeeId
            (SMap.set (SMap.getD outer a.employeeId []) (key a)
              (SMap.getD (SMap.getD outer a.employeeId []) (key a) 0 + a.hours))
        else outer) outer) e []) w 0 =
    SMap.getD (SMap.getD outer e []) w 0 +
      ((as.filter (fun a => (p a && a.employeeId == e) && key a == w)).map
        (fun a => a.hours)).sum := by
  induction as with
  | nil => intro outer e w; simp
  | cons a t ih =>
      intro outer e w
      rw [List.foldl_cons]
      rw [ih]
      by_cases hp : p a
      · by_cases he : a.employeeId = e
        · by_cases hw : key a = w
          · simp only [hp, if_true, List.filter_cons, he, hw]
            simp [SMap.getD_set]
            ring
          · have hbw : (key a == w) = false := by simpa using hw
            simp only [hp, if_true, List.filter_cons, he]
            simp [SMap.getD_set, hw, hbw]
        · have hbe : (a.employeeId == e) = false := by simpa using he
          simp only [hp, if_true, List.filter_cons]
          simp [SMap.getD_set, he, hbe]
      · have : (p a) = false := by simpa using hp
        simp [this]

theorem hoursByPeriodIf_keys (p : Assignment → Bool) (key : Assignment → String)
    (as : List Assignment) :
    ∀ (outer : SMap (SMap ℚ)) (e : String),
    (SMap.keys (SMap.getD (as.foldl
      (fun outer a =>
        if p a then
          SMap.set outer a.employeeId
            (SMap.set (SMap.getD outer a.employeeId []) (key a)
              (SMap.getD (SMap.getD outer a.employeeId []) (key a) 0 + a.hours))
        else outer) outer) e [])).toFinset =
    (SMap.keys (SMap.getD outer e [])).toFinset ∪
      ((as.filter (fun a => p a && a.employeeId == e)).map key).toFinset := by
  induction as with
  | nil => intro outer e; simp
  | cons a t ih =>
      intro outer e
      rw [List.foldl_cons, ih]
      by_cases hp : p a
      · by_cases he : a.employeeId = e
        · simp only [hp, if_true, List.filter_cons, he]
          simp [SMap.getD_set, SMap.toFinset_keys_set]
          try ext x
          try simp
          try tauto
        · have hbe : (a.employeeId == e) = false := by simpa using he
          simp only [hp, if_true, List.filter_cons]
          simp [SMap.getD_set, he, hbe]
      · have : (p a) = false := by simpa using hp
        simp [this]

theorem hoursByPeriodIf_nodup (p : Assignment → Bool) (key : Assignment → String)
    (as : List Assignment) :
    ∀ (outer : SMap (SMap ℚ)),
    (∀ e, (SMap.keys (SMap.getD outer e [])).Nodup) →
    ∀ e, (SMap.keys (SMap.getD (as.foldl
      (fun outer a =>
        if p a then
          SMap.set outer a.employeeId
            (SMap.set (SMap.getD outer a.employeeId []) (key a)
              (SMap.getD (SMap.getD outer a.employeeId []) (key a) 0 + a.hours))
        else outer) outer) e [])).Nodup := by
  induction as with
  | nil => intro outer h e; simpa using h e
  | cons a t ih =>
      intro outer h e
      rw [List.foldl_cons]
      by_cases hp : p a
      · simp only [hp, if_true]
        apply ih
        intro e'
        rw [SMap.getD_set]
        by_cases he : a.employeeId = e'
        · rw [if_pos he]
          exact SMap.keys_nodup_set _ _ _ (h a.employeeId)
        · rw [if_neg he]
          exact h e'
      · have : (p a) = false := by simpa using hp
        simp only [this, Bool.false_eq_true, if_false]
        exact ih outer h e

theorem overtimeFromBuckets_eq (es : List Employee) (buckets : SMap (SMap ℚ)) :
    overtimeFromBuckets es buckets =
    (es.map (fun e => ((SMap.getD buckets e.id []).map
      (fun q => if q.2 > e.maxHours then q.2 - e.maxHours else 0)).sum)).sum := by
  unfold overtimeFromBuckets
  suffices h : ∀ c : ℚ, es.foldl
      (fun acc e =>
        match SMap.get? buckets e.id with
        | some periodHours =>
            periodHours.foldl
              (fun t q => if q.2 > e.maxHours then t + (q.2 - e.maxHours) else t) acc
        | none => acc) c =
      c + (es.map (fun e => ((SMap.getD buckets e.id []).map
        (fun q => if q.2 > e.maxHours then q.2 - e.maxHours else 0)).sum)).sum by
    simpa using h 0
  induction es with
  | nil => intro c; simp
  | cons e t ih =>
      intro c
      rw [List.foldl_cons, ih]
      cases hq : SMap.get? buckets e.id with
      | none =>
          simp [SMap.getD, hq]
      | some pm =>
          simp only [hq, SMap.getD, Option.getD_some]
          rw [foldl_add_if (fun q => q.2 > e.maxHours) (fun q => q.2 - e.maxHours) pm c]
          simp [SMap.getD, hq, add_assoc]

theorem overtime_eq_spec_general (p : Assignment → Bool) (key : Assignment → String)
    (es : List Employee) (as : List Assignment) :
    overtimeFromBuckets es (hoursByPeriodIf p key as) =
    (es.map (fun e =>
      ((((as.filter (fun a => p a && a.employeeId == e.id)).map key).dedup).map
        (fun w => max 0
          (((as.filter (fun a => (p a && a.employeeId == e.id) && key a == w)).map
            (fun a => a.hours)).sum - e.maxHours))).sum)).sum := by
  rw [overtimeFromBuckets_eq]
  congr 1
  apply List.map_congr_left
  intro e _
  have hbase : ∀ e' : String, (SMap.keys (SMap.getD ([] : SMap (SMap ℚ)) e' [])).Nodup := by
    intro e'
    simp [SMap.getD, SMap.get?, SMap.keys]
  have hnodup : (SMap.keys (SMap.getD (hoursByPeriodIf p key as) e.id [])).Nodup :=
    hoursByPeriodIf_nodup p key as [] hbase e.id
  rw [SMap.exceed_sum_eq_keys_sum _ e.maxHours hnodup]
  have hkeys := hoursByPeriodIf_keys p key as [] e.id
  have hkeys' : (SMap.keys (SMap.getD (hoursByPeriodIf p key as) e.id [])).toFinset =
      ((as.filter (fun a => p a && a.employeeId == e.id)).map key).toFinset := by
    rw [hoursByPeriodIf]
    rw [hkeys]
    simp [SMap.getD, SMap.get?, SMap.keys]
  rw [sum_map_eq_of_toFinset_eq _
      (((as.filter (fun a => p a && a.employeeId == e.id)).map key).dedup) _ hnodup
      (List.nodup_dedup _) (by rw [hkeys']; ext x; simp [List.mem_dedup])]
  apply congrArg
  apply List.map_congr_left
  intro w _
  have hval := hoursByPeriodIf_getD p key as [] e.id w
  rw [hoursByPeriodIf]
  rw [hval]
  simp only [SMap.getD, SMap.get?, Option.getD_none, zero_add]
  rcases le_or_lt (((as.filter (fun a => (p a && a.employeeId == e.id) && key a == w)).map
      (fun a => a.hours)).sum) e.maxHours with hle | hlt
  · rw [if_neg (not_lt.mpr hle), max_eq_left (by linarith)]
  · rw [if_pos hlt, max_eq_right (by linarith)]

theorem specPeriodHours_eq (as : List Assignment) (eid : String) (w : String) :
    specPeriodHours as eid w =
    ((as.filter (fun a =>
      (! isPlaceholderId a.employeeId && a.employeeId == eid) && batchPeriodKey a == w)).map
      (fun a => a.hours)).sum := by
  unfold specPeriodHours specEmployeeAssignments
  rw [List.filter_filter]
  apply congrArg
  apply congrArg
  apply List.filter_congr
  intro a _
  exact Bool.and_comm _ _

/-- Common core of the two batch overtime computations: whenever the
in-loop filter agrees with the placeholder filter on every employee of
the list, the bucketed overtime equals the spec formula. -/
theorem overtime_eq_specTotalOvertime (p : Assignment → Bool) (es : List Employee)
    (as : List Assignment)
    (hp : ∀ e ∈ es, ∀ a : Assignment,
      (p a && (a.employeeId == e.id)) =
      (! isPlaceholderId a.employeeId && (a.employeeId == e.id))) :
    overtimeFromBuckets es (hoursByPeriodIf p batchPeriodKey as) =
    specTotalOvertime es as := by
  rw [overtime_eq_spec_general]
  unfold specTotalOvertime
  apply congrArg
  apply List.map_congr_left
  intro e he
  have hfe : as.filter (fun a => p a && a.employeeId == e.id) =
      as.filter (fun a => ! isPlaceholderId a.employeeId && a.employeeId == e.id) :=
    List.filter_congr (fun a _ => hp e he a)
  have hfw : ∀ w : String, as.filter (fun a => (p a && a.employeeId == e.id)
        && batchPeriodKey a == w) =
      as.filter (fun a => (! isPlaceholderId a.employeeId && a.employeeId == e.id)
        && batchPeriodKey a == w) := by
    intro w
    apply List.filter_congr
    intro a _
    rw [hp e he a]
  unfold specPeriodsOf specEmployeeAssignments
  rw [hfe]
  apply congrArg
  apply List.map_congr_left
  intro w _
  rw [specPeriodHours_eq, hfw w]

theorem calculateTotalOvertime_eq_spec (es : List Employee) (as : List Assignment) :
    calculateTotalOvertime es as = specTotalOvertime es as := by
  unfold calculateTotalOvertime
  exact overtime_eq_specTotalOvertime _ es as (fun _ _ _ => rfl)

theorem calculateMetrics_overtime_eq_spec (es : List Employee) (ps : List Project)
    (as : List Assignment) (dr : Option DateRange)
    (h : ∀ e ∈ es, isPlaceholderId e.id = false) :
    (calculateMetrics es ps as dr).overtimeHours = jsRound (specTotalOvertime es as) := by
  unfold calculateMetrics
  simp only []
  apply congrArg
  apply overtime_eq_specTotalOvertime
  intro e he a
  by_cases hbe : (a.employeeId == e.id) = true
  · have : a.employeeId = e.id := by simpa using hbe
    rw [hbe, this, h e he]
    rfl
  · have : (a.employeeId == e.id) = false := by simpa using hbe
    rw [this]
    simp

theorem specTotalAssignedHours_nonneg (es : List Employee) (as : List Assignment)
    (h4 : ∀ a ∈ as, 0 ≤ a.hours) : 0 ≤ specTotalAssignedHours es as := by
  apply List.sum_nonneg
  intro x hx
  obtain ⟨e, _, rfl⟩ := List.mem_map.mp hx
  apply List.sum_nonneg
  intro y hy
  obtain ⟨a, ha, rfl⟩ := List.mem_map.mp hy
  exact h4 a (List.mem_of_mem_filter ha)

theorem specTotalAssignedHours_append_placeholder (es : List Employee)
    (as : List Assignment) (pa : Assignment)
    (h1 : ∀ e ∈ es, isPlaceholderId e.id = false)
    (h2 : isPlaceholderId pa.employeeId = true) :
    specTotalAssignedHours es (as ++ [pa]) = specTotalAssignedHours es as := by
  unfold specTotalAssignedHours
  apply congrArg
  apply List.map_congr_left
  intro e he
  unfold specAssignedHoursOf
  rw [List.filter_append]
  have hne : (pa.employeeId == e.id) = false := by
    by_contra hc
    have hbe : (pa.employeeId == e.id) = true := by
      cases hb : (pa.employeeId == e.id) with
      | true => rfl
      | false => exact absurd hb hc
    have heq : pa.employeeId = e.id := by simpa using hbe
    rw [heq, h1 e he] at h2
    exact Bool.false_ne_true h2
  simp [hne]

theorem specNumPeriods_append_mono (as : List Assignment) (pa : Assignment) :
    specNumPeriods as none ≤ specNumPeriods (as ++ [pa]) none := by
  unfold specNumPeriods specDistinctPeriodCount
  have hsub : (as.map batchPeriodKey).toFinset ⊆ ((as ++ [pa]).map batchPeriodKey).toFinset := by
    intro x hx
    simp only [List.map_append, List.toFinset_append, Finset.mem_union]
    exact Or.inl hx
  have hcard := Finset.card_le_card hsub
  rw [List.card_toFinset, List.card_toFinset] at hcard
  have : ((as.map batchPeriodKey).dedup.length : ℤ) ≤
      (((as ++ [pa]).map batchPeriodKey).dedup.length : ℤ) := by exact_mod_cast hcard
  exact max_le_max (le_refl 1) this

/-- Claim C5: for every employee list with non-negative capacities,
calculateResourceUtilization equals round(100 × totalAssignedHours /
(Σ maxHours × numPeriods)) with numPeriods as specified, 0 for an
empty employee list; the 10h + 50h example over two periods gives 75. -/
theorem C5_thm (es : List Employee) (as : List Assignment) (dr : Option DateRange)
    (h : ∀ e ∈ es, 0 ≤ e.maxHours) :
    calculateResourceUtilization es as dr = specUtilization es as dr ∧
    calculateResourceUtilization [fxE40] [fxA5a, fxA5b] none = 75 ∧
    calculateResourceUtilization [] ([] : List Assignment) none = 0 := by
  refine ⟨calcRU_eq_spec es as dr h, ?_, by simp [calculateResourceUtilization]⟩
  simp [calculateResourceUtilization, periodKeySet, sumHoursByEmployee, batchPeriodKey,
    jsOr, jsRound, ratFloor, SMap.set, SMap.get?, SMap.getD, SMap.hasKey, SSet.insert,
    SSet.has, fxE40, fxA5a, fxA5b]
  norm_num
  decide

/-- Claim C6 (amended): batch overtime is period-scoped; the
optimizer's calculateTotalOvertime always equals the spec formula with
placeholders excluded, and calculateMetrics equals its rounding
whenever no employee in the list carries a placeholder-sentinel id; an
employee under capacity in each period but over cumulatively shows 0. -/
theorem C6_amended (es : List Employee) (ps : List Project) (as : List Assignment)
    (dr : Option DateRange) (h : ∀ e ∈ es, isPlaceholderId e.id = false) :
    calculateTotalOvertime es as = specTotalOvertime es as ∧
    (calculateMetrics es ps as dr).overtimeHours = jsRound (specTotalOvertime es as) ∧
    (calculateMetrics [fxE40] [] [fxA6a, fxA6b] none).overtimeHours = 0 := by
  refine ⟨calculateTotalOvertime_eq_spec es as,
    calculateMetrics_overtime_eq_spec es ps as dr h, ?_⟩
  simp [calculateMetrics, calculateResourceUtilization, periodKeySet, sumHoursByEmployee,
    hoursByPeriodIf, overtimeFromBuckets, calculateSkillsMatch, skillScoreOf, mapById,
    projById, batchPeriodKey, jsOr, jsRound, ratFloor, SMap.set, SMap.get?, SMap.getD,
    SMap.hasKey, SSet.insert, SSet.has, fxE40, fxA6a, fxA6b]
  norm_num
  decide

/-- Claim C10 (amended): when no employee in the list carries a
placeholder-sentinel id, a placeholder assignment's hours never enter
the numerator, and appending one can only lower or preserve the
reported utilization. -/
theorem C10_amended (es : List Employee) (as : List Assignment) (pa : Assignment)
    (h1 : ∀ e ∈ es, isPlaceholderId e.id = false)
    (h2 : isPlaceholderId pa.employeeId = true)
    (h4 : ∀ a ∈ as, 0 ≤ a.hours)
    (h5 : ∀ e ∈ es, 0 ≤ e.maxHours) :
    specTotalAssignedHours es (as ++ [pa]) = specTotalAssignedHours es as ∧
    calculateResourceUtilization es (as ++ [pa]) none ≤
      calculateResourceUtilization es as none := by
  have hA := specTotalAssignedHours_append_placeholder es as pa h1 h2
  refine ⟨hA, ?_⟩
  rw [calcRU_eq_spec es (as ++ [pa]) none h5, calcRU_eq_spec es as none h5]
  unfold specUtilization
  by_cases hes : es = []
  · simp [hes]
  · simp only [hes, if_false]
    apply jsRound_mono
    rw [hA]
    set A : ℚ := specTotalAssignedHours es as with hAdef
    set M : ℚ := (es.map (fun e => e.maxHours)).sum with hM
    have hAnn : 0 ≤ A := specTotalAssignedHours_nonneg es as h4
    have hMnn : 0 ≤ M := by
      rw [hM]
      apply List.sum_nonneg
      intro x hx
      obtain ⟨e, he, rfl⟩ := List.mem_map.mp hx
      exact h5 e he
    have hP1 : (1 : ℤ) ≤ specNumPeriods as none := specNumPeriods_pos as none
    have hPle : specNumPeriods as none ≤ specNumPeriods (as ++ [pa]) none :=
      specNumPeriods_append_mono as pa
    by_cases hM0 : M = 0
    · rw [hM0]
      simp
    · have hMpos : 0 < M := lt_of_le_of_ne hMnn (fun hh => hM0 hh.symm)
      have hPq : (0 : ℚ) < (specNumPeriods as none : ℚ) := by
        exact_mod_cast lt_of_lt_of_le one_pos hP1
      have hPq' : ((specNumPeriods as none : ℤ) : ℚ) ≤
          ((specNumPeriods (as ++ [pa]) none : ℤ) : ℚ) := by exact_mod_cast hPle
      gcongr

theorem SSet.has_insert (s : SSet) (q k : String) :
    SSet.has (SSet.insert s q) k = (SSet.has s k || (q == k)) := by
  unfold SSet.insert
  by_cases h : SSet.has s q
  · rw [if_pos h]
    by_cases he : q = k
    · subst he
      simp [h]
    · have : (q == k) = false := by simpa using he
      simp [this]
  · rw [if_neg h]
    unfold SSet.has
    rw [List.any_append]
    by_cases he : q = k <;> simp [he]

theorem SSet.has_foldl_insert {α : Type} (f : α → String) (l : List α) (s : SSet)
    (k : String) :
    SSet.has (l.foldl (fun acc x => SSet.insert acc (f x)) s) k =
    (SSet.has s k || l.any (fun x => f x == k)) := by
  induction l generalizing s with
  | nil => simp
  | cons a t ih =>
      rw [List.foldl_cons, ih, SSet.has_insert]
      simp [Bool.or_assoc]

/-- Claim C3 (amended): the synthesized predicted list equals the
original list with every placeholder whose projectId-week-label string
key matches some suggestion's key removed, all other assignments kept
unchanged, and one concrete assignment per suggestion appended; since
a suggestion's week copies the placeholder's week field, groups keyed
by date (week empty) do not get their placeholders removed. -/
theorem C3_amended (assignments : List Assignment)
    (suggestions : List PlaceholderSuggestion) :
    applysuggestions assignments suggestions = applySuggestionsSpec assignments suggestions := by
  simp only [applysuggestions, applySuggestionsSpec]
  congr 1
  apply List.filter_congr
  intro a _
  by_cases hph : isPlaceholderId a.employeeId
  · simp only [hph, if_true]
    rw [SSet.has_foldl_insert (fun sg => sg.projectId ++ ("-") ++ sg.week) suggestions []
      (a.projectId ++ ("-") ++ jsOr a.week a.date)]
    simp [SSet.has]
  · have : (isPlaceholderId a.employeeId) = false := by simpa using hph
    simp [this]

theorem bestStep_isSome (score : Employee → ℚ) (acc : Option (Employee × ℚ)) (e : Employee) :
    (bestStep score acc e).isSome := by
  cases acc with
  | none => simp [bestStep]
  | some b =>
      simp only [bestStep]
      split <;> simp

theorem bestStep_foldl_isSome (score : Employee → ℚ) (l : List Employee) :
    ∀ acc : Option (Employee × ℚ), (acc = none → l ≠ []) →
    (l.foldl (bestStep score) acc).isSome := by
  induction l with
  | nil =>
      intro acc h
      cases hq : acc with
      | none => exact absurd rfl (h hq)
      | some b => simp [hq]
  | cons c t ih =>
      intro acc h
      rw [List.foldl_cons]
      apply ih
      intro hnone
      exfalso
      have := bestStep_isSome score acc c
      rw [hnone] at this
      simp at this

theorem bestStep_foldl_mem (score : Employee → ℚ) (l : List Employee) :
    ∀ (acc : Option (Employee × ℚ)) (r : Employee × ℚ),
    l.foldl (bestStep score) acc = some r → r.1 ∈ l ∨ acc = some r := by
  induction l with
  | nil =>
      intro acc r h
      right
      simpa using h
  | cons c t ih =>
      intro acc r h
      rw [List.foldl_cons] at h
      rcases ih (bestStep score acc c) r h with hmem | heq
      · exact Or.inl (List.mem_cons_of_mem c hmem)
      · cases acc with
        | none =>
            simp only [bestStep] at heq
            have : c = r.1 := congrArg Prod.fst (Option.some.inj heq)
            left
            rw [← this]
            exact List.mem_cons_self c t
        | some b =>
            simp only [bestStep] at heq
            split at heq
            · left
              have : c = r.1 := congrArg Prod.fst (Option.some.inj heq)
              rw [← this]
              exact List.mem_cons_self c t
            · right
              exact heq

theorem findBestEmployee_some (placeholder : Assignment) (project : Project)
    (data : ScheduleData) (weights : OptimizationWeights)
    (skillScoreMatrix : SMap (SMap ℚ)) (excluded : SSet)
    (h : data.employees.filter
      (fun e => notVirtualPlaceholder e && ! SSet.has excluded e.id) ≠ []) :
    ∃ best, findBestEmployee placeholder project data weights skillScoreMatrix excluded =
      some best ∧
    best ∈ data.employees.filter
      (fun e => notVirtualPlaceholder e && ! SSet.has excluded e.id) := by
  unfold findBestEmployee
  have h1 := bestStep_foldl_isSome (candidateScore placeholder project data weights
    skillScoreMatrix)
    (data.employees.filter (fun e => notVirtualPlaceholder e && ! SSet.has excluded e.id))
    none (fun _ => h)
  obtain ⟨r, hr⟩ := Option.isSome_iff_exists.mp h1
  rcases bestStep_foldl_mem _ _ none r hr with hmem | habs
  · refine ⟨r.1, ?_, hmem⟩
    show (List.foldl (bestStep (candidateScore placeholder project data weights
      skillScoreMatrix)) none (data.employees.filter
      (fun e => notVirtualPlaceholder e && ! SSet.has excluded e.id))).map
      (fun p => p.1) = some r.1
    rw [hr]
    rfl
  · exact absurd habs.symm (Option.some_ne_none r)

theorem eligible_filter_length_insert (E : List String) (hE : E.Nodup) (used : SSet)
    (x : String) (hx : x ∈ E) (hxu : SSet.has used x = false) :
    (E.filter (fun i => ! SSet.has (SSet.insert used x) i)).length =
    (E.filter (fun i => ! SSet.has used i)).length - 1 := by
  have h1 : E.filter (fun i => ! SSet.has (SSet.insert used x) i) =
      (E.filter (fun i => ! SSet.has used i)).filter (fun i => i != x) := by
    rw [List.filter_filter]
    apply List.filter_congr
    intro i _
    rw [SSet.has_insert]
    by_cases he : x = i
    · subst he
      simp
    · have h2 : (x == i) = false := by simpa using he
      have h3 : (i != x) = true := by simp [bne]; exact fun hh => he hh.symm
      rw [h2, h3]
      simp
  rw [h1]
  have hmn : (E.filter (fun i => ! SSet.has used i)).Nodup := hE.filter _
  have hxm : x ∈ E.filter (fun i => ! SSet.has used i) :=
    List.mem_filter.mpr ⟨hx, by simp [hxu]⟩
  rw [← hmn.erase_eq_filter x]
  exact List.length_erase_of_mem hxm

theorem eligibleIds_nodup (data : ScheduleData) : (eligibleIds data).Nodup :=
  List.nodup_dedup _

theorem processGroupGo_spec (data : ScheduleData) (weights : OptimizationWeights)
    (matrix : SMap (SMap ℚ)) (project : Project) :
    ∀ (phs : List Assignment) (used : SSet),
    phs.length ≤ ((eligibleIds data).filter (fun i => ! SSet.has used i)).length →
    (processGroupGo data weights matrix project phs used).length = phs.length ∧
    (∀ i ∈ (processGroupGo data weights matrix project phs used).map
        (fun s => s.suggestedEmployeeId), i ∈ eligibleIds data ∧ SSet.has used i = false) ∧
    ((processGroupGo data weights matrix project phs used).map
        (fun s => s.suggestedEmployeeId)).Nodup := by
  intro phs
  induction phs with
  | nil =>
      intro used h
      refine ⟨rfl, ?_, ?_⟩ <;> simp [processGroupGo]
  | cons ph rest ih =>
      intro used h
      have hpos : 0 < ((eligibleIds data).filter (fun i => ! SSet.has used i)).length := by
        simp only [List.length_cons] at h
        omega
      obtain ⟨x, hxmem⟩ := List.exists_mem_of_ne_nil _
        (List.ne_nil_of_length_pos hpos)
      have hxE : x ∈ eligibleIds data := (List.mem_filter.mp hxmem).1
      have hxu : SSet.has used x = false := by
        have := (List.mem_filter.mp hxmem).2
        simpa using this
      obtain ⟨e, he, heid⟩ : ∃ e, e ∈ data.employees.filter notVirtualPlaceholder ∧
          e.id = x := by
        have hx2 : x ∈ (data.employees.filter notVirtualPlaceholder).map
            (fun e => e.id) := by
          unfold eligibleIds at hxE
          exact List.mem_dedup.mp hxE
        obtain ⟨e, he, hx⟩ := List.mem_map.mp hx2
        exact ⟨e, he, hx⟩
      have hcand : e ∈ data.employees.filter
          (fun e => notVirtualPlaceholder e && ! SSet.has used e.id) := by
        rcases List.mem_filter.mp he with ⟨hmem, hnv⟩
        apply List.mem_filter.mpr
        refine ⟨hmem, ?_⟩
        simp [hnv, heid, hxu]
      have hne : data.employees.filter
          (fun e => notVirtualPlaceholder e && ! SSet.has used e.id) ≠ [] :=
        List.ne_nil_of_mem hcand
      obtain ⟨best, hbest, hbestmem⟩ :=
        findBestEmployee_some ph project data weights matrix used hne
      rcases List.mem_filter.mp hbestmem with ⟨hbmem, hbprop⟩
      have hbnv : notVirtualPlaceholder best = true := by
        have := hbprop
        simp at this
        exact this.1
      have hbused : SSet.has used best.id = false := by
        have := hbprop
        simp at this
        simpa using this.2
      have hbE : best.id ∈ eligibleIds data := by
        unfold eligibleIds
        apply List.mem_dedup.mpr
        exact List.mem_map.mpr ⟨best, List.mem_filter.mpr ⟨hbmem, hbnv⟩, rfl⟩
      have hgo : processGroupGo data weights matrix project (ph :: rest) used =
          mkSuggestion project ph best data matrix ::
            processGroupGo data weights matrix project rest (SSet.insert used best.id) := by
        rw [processGroupGo, hbest]
      have hlen : rest.length ≤ ((eligibleIds data).filter
          (fun i => ! SSet.has (SSet.insert used best.id) i)).length := by
        rw [eligible_filter_length_insert (eligibleIds data) (eligibleIds_nodup data)
          used best.id hbE hbused]
        simp only [List.length_cons] at h
        omega
      obtain ⟨ih1, ih2, ih3⟩ := ih (SSet.insert used best.id) hlen
      refine ⟨?_, ?_, ?_⟩
      · rw [hgo]
        simp [ih1]
      · rw [hgo]
        intro i hi
        simp only [List.map_cons, List.mem_cons] at hi
        rcases hi with hhead | htail
        · rw [hhead]
          exact ⟨hbE, by simpa [mkSuggestion] using hbused⟩
        · obtain ⟨hiE, hiu⟩ := ih2 i htail
          rw [SSet.has_insert] at hiu
          refine ⟨hiE, ?_⟩
          rcases Bool.or_eq_false_iff.mp hiu with ⟨h1, _⟩
          exact h1
      · rw [hgo]
        simp only [List.map_cons, List.nodup_cons]
        refine ⟨?_, ih3⟩
        intro hmem
        obtain ⟨_, hiu⟩ := ih2 _ hmem
        rw [SSet.has_insert] at hiu
        rcases Bool.or_eq_false_iff.mp hiu with ⟨_, h2⟩
        simp [mkSuggestion] at h2

/-- Claim C7 (amended): within one group whose project resolves, if at
least N distinct employee ids pass the optimizer's sentinel filter,
then exactly N suggestions are produced, with pairwise distinct
suggested employee ids. -/
theorem C7_amended (data : ScheduleData) (weights : OptimizationWeights)
    (matrix : SMap (SMap ℚ)) (project : Project) (placeholders : List Assignment)
    (h : placeholders.length ≤ (eligibleIds data).length) :
    (processGroup data weights matrix project placeholders).length = placeholders.length ∧
    ((processGroup data weights matrix project placeholders).map
      (fun s => s.suggestedEmployeeId)).Nodup := by
  unfold processGroup
  have h0 : ((eligibleIds data).filter (fun i => ! SSet.has ([] : SSet) i)) =
      eligibleIds data := by
    simp [SSet.has]
  have hh := processGroupGo_spec data weights matrix project placeholders []
    (by rw [h0]; exact h)
  exact ⟨hh.1, hh.2.2⟩

/-- Claim C7 witness: a two-placeholder group with two eligible
employees yields two suggestions with distinct employee ids. -/
theorem C7_wit :
    2 ≤ (eligibleIds fxD7b).length ∧
    (processGroup fxD7b fxW (createSkillScoreMatrix fxD7b.employees fxD7b.projects) fxP
      [fxPh7a, fxPh7b]).length = 2 ∧
    ((processGroup fxD7b fxW (createSkillScoreMatrix fxD7b.employees fxD7b.projects) fxP
      [fxPh7a, fxPh7b]).map (fun s => s.suggestedEmployeeId)).Nodup :=
  ⟨by decide,
    (C7_amended fxD7b fxW (createSkillScoreMatrix fxD7b.employees fxD7b.projects) fxP
      [fxPh7a, fxPh7b] (by decide)).1,
    (C7_amended fxD7b fxW (createSkillScoreMatrix fxD7b.employees fxD7b.projects) fxP
      [fxPh7a, fxPh7b] (by decide)).2⟩


/-- Claim C2 (amended): for an assignment carrying both a date and a
week label, the batch period key is the date, but the incremental
period key and the optimizer's placeholder group key use the week
label, with the date only as fallback. -/
theorem C2_amended (a : Assignment) (hd : ¬ a.date = ("")) (hw : ¬ a.week = ("")) :
    batchPeriodKey a = a.date ∧ incPeriodKey a = a.week ∧
    groupKeyOf a = a.projectId ++ ("-") ++ a.week := by
  refine ⟨?_, ?_, ?_⟩ <;> simp [batchPeriodKey, incPeriodKey, groupKeyOf, jsOr, hd, hw]

/-- Claim C2 witness: the precedence facts at a concrete assignment. -/
theorem C2_wit :
    ¬ fxA2a.date = ("") ∧ ¬ fxA2a.week = ("") ∧
    batchPeriodKey fxA2a = fxA2a.date ∧ incPeriodKey fxA2a = fxA2a.week ∧
    groupKeyOf fxA2a = fxA2a.projectId ++ ("-") ++ fxA2a.week :=
  ⟨by decide, by decide,
    (C2_amended fxA2a (by decide) (by decide)).1,
    (C2_amended fxA2a (by decide) (by decide)).2.1,
    (C2_amended fxA2a (by decide) (by decide)).2.2⟩

/-- Claim C7 (counterexample): a group whose projectId resolves to no
known project is skipped entirely, producing zero suggestions despite
one placeholder and one eligible employee. -/
theorem C7_cx :
    (optimizeSchedule fxD7 Alg.genetic fxW none).suggestions = [] ∧
    (eligibleIds fxD7).length = 1 ∧
    (fxD7.assignments.filter (fun a => isPlaceholderId a.employeeId)).length = 1 := by
  refine ⟨?_, by decide, by decide⟩
  simp +decide [optimizeSchedule, createSkillScoreMatrix, getEmployeeProjectSkillScore,
    placeholderGroupsOf, groupKeyOf, processGroup, processGroupGo, findBestEmployee,
    bestStep, candidateScore, currentHoursOf, mkSuggestion, calculateAssignmentScores,
    suggestionToAssignment, applysuggestions, calculateTotalScore, calculateTotalOvertime,
    optMetricsOf, isPlaceholderId, notVirtualPlaceholder, projById, mapById, jsOr,
    SMap.set, SMap.get?, SMap.getD, SMap.hasKey, SSet.insert, SSet.has,
    fxD7, fxE1, fxPh3]

/-- Claim C3 (counterexample): for a date-only placeholder the
optimizer resolves its group, yet applysuggestions keeps the resolved
placeholder and appends the new assignment, because the replaced-key
uses the empty week label while the group key used the date. -/
theorem C3_cx :
    (optimizeSchedule fxD3 Alg.genetic fxW none).suggestions = [fxS3] ∧
    applysuggestions fxD3.assignments (optimizeSchedule fxD3 Alg.genetic fxW none).suggestions
      = [fxPh3, suggestionToAssignment fxS3] ∧
    isPlaceholderId fxPh3.employeeId = true := by
  refine ⟨?_, ?_, by decide⟩ <;>
    simp +decide [optimizeSchedule, createSkillScoreMatrix, getEmployeeProjectSkillScore,
      placeholderGroupsOf, groupKeyOf, processGroup, processGroupGo, findBestEmployee,
      bestStep, candidateScore, currentHoursOf, mkSuggestion, calculateAssignmentScores,
      suggestionToAssignment, applysuggestions, calculateTotalScore, calculateTotalOvertime,
      optMetricsOf, isPlaceholderId, notVirtualPlaceholder, projById, mapById, jsOr,
      SMap.set, SMap.get?, SMap.getD, SMap.hasKey, SSet.insert, SSet.has,
      hoursByPeriodIf, overtimeFromBuckets, calculateSkillsMatch, skillScoreOf,
      calculateResourceUtilization, periodKeySet, sumHoursByEmployee, batchPeriodKey,
      jsRound, ratFloor, fxD3, fxE1, fxP, fxPh3, fxS3, fxW,
      PlaceholderSuggestion.mk.injEq, Assignment.mk.injEq] <;>
    norm_num


/-- Claim C1 (code bug evaluation): after adding an assignment whose
employee and project ids resolve to nothing, the incremental path
reports skillsMatching 100 because the unknown dirty project is cached
as 100, while a fresh initialize on the same final state reports 0, so
incremental and full recompute disagree. -/
theorem C1_bug :
    (getMetricsInc (addAssignment (initializeInc [] [] []) fxA1)).skillsMatching = 100 ∧
    (getMetricsInc (initializeInc [] [] [fxA1])).skillsMatching = 0 := by
  constructor <;>
    simp [getMetricsInc, getMetricsState, aggregateMetrics, recalculateDirty, calculateAll,
      clearDirtyTracking, initializeInc, addAssignment, calcEmployeeOvertime,
      calcEmployeeUtilization, calcProjectSkillsMatch, incPeriodKey, SMap.set, SMap.get?,
      SMap.getD, SMap.hasKey, SSet.insert, SSet.has, jsOr, jsRound, ratFloor, fxA1] <;>
    norm_num <;> decide

/-- Claim C2 (counterexample): two assignments sharing the legacy week
label W1 but carrying distinct dates are bucketed into one week-keyed
period by the incremental overtime (20 hours of overtime), while the
batch calculator buckets them by date and reports 0. -/
theorem C2_cx :
    (getMetricsInc (initializeInc [fxE40] [] [fxA2a, fxA2b])).overtimeHours = 20 ∧
    (calculateMetrics [fxE40] [] [fxA2a, fxA2b] none).overtimeHours = 0 := by
  constructor <;>
    simp [getMetricsInc, getMetricsState, aggregateMetrics, recalculateDirty, calculateAll,
      clearDirtyTracking, initializeInc, calcEmployeeOvertime, calcEmployeeUtilization,
      calcProjectSkillsMatch, incPeriodKey, SMap.set, SMap.get?, SMap.getD, SMap.hasKey,
      SSet.insert, SSet.has, jsOr, jsRound, ratFloor,
      calculateMetrics, calculateResourceUtilization, periodKeySet, sumHoursByEmployee,
      hoursByPeriodIf, overtimeFromBuckets, calculateSkillsMatch, skillScoreOf, mapById,
      projById, batchPeriodKey, fxE40, fxA2a, fxA2b] <;>
    norm_num <;> decide

/-- Claim C4 (counterexample): an added assignment whose employee and
project ids resolve to nothing raises the reported skillsMatching from
0 to 100, so a failed project lookup does not contribute zero. -/
theorem C4_cx :
    (getMetricsInc (addAssignment (initializeInc [] [] []) fxA4)).skillsMatching = 100 ∧
    (getMetricsInc (initializeInc [] [] [])).skillsMatching = 0 := by
  constructor <;>
    simp [getMetricsInc, getMetricsState, aggregateMetrics, recalculateDirty, calculateAll,
      clearDirtyTracking, initializeInc, addAssignment, calcEmployeeOvertime,
      calcEmployeeUtilization, calcProjectSkillsMatch, incPeriodKey, SMap.set, SMap.get?,
      SMap.getD, SMap.hasKey, SSet.insert, SSet.has, jsOr, jsRound, ratFloor, fxA4] <;>
    norm_num <;> decide

/-- Claim C4 (amended): a failed employee lookup contributes zero to
the batch skills match, as does a failed project lookup there; in the
incremental cache a failed employee lookup leaves the state untouched,
but a dirty project id that resolves to nothing is cached with the
trivially-satisfied value 100 rather than zero; no operation raises. -/
theorem C4_amended :
    (∀ (a : Assignment) (as : List Assignment) (em : SMap Employee) (pm : SMap Project),
      SMap.get? em a.employeeId = none →
      calculateSkillsMatch (a :: as) em pm = calculateSkillsMatch as em pm) ∧
    (∀ (a : Assignment) (as : List Assignment) (em : SMap Employee) (pm : SMap Project),
      SMap.get? pm a.projectId = none →
      calculateSkillsMatch (a :: as) em pm = calculateSkillsMatch as em pm) ∧
    (∀ (s : IncState) (eid : String), SMap.get? s.employees eid = none →
      calcEmployeeUtilization (calcEmployeeOvertime s eid) eid = s) ∧
    (∀ (s : IncState) (pid : String), SMap.get? s.projects pid = none →
      calcProjectSkillsMatch s pid =
        { s with skillsMatchByProject := SMap.set s.skillsMatchByProject pid 100 }) := by
  refine ⟨?_, ?_, ?_, ?_⟩
  · intro a as em pm h
    simp [calculateSkillsMatch, SSet.has, h]
  · intro a as em pm h
    cases hq : SMap.get? em a.employeeId <;>
      simp [calculateSkillsMatch, SSet.has, h, hq]
  · intro s eid h
    simp [calcEmployeeOvertime, calcEmployeeUtilization, h]
  · intro s pid h
    simp [calcProjectSkillsMatch, h]

/-- Claim C4 witness: the amended statement applied at a concrete
missing employee and a concrete missing project. -/
theorem C4_wit :
    SMap.get? ([] : SMap Employee) fxA4w.employeeId = none ∧
    calculateSkillsMatch [fxA4w] [] [] = calculateSkillsMatch [] [] [] ∧
    SMap.get? fxS9.projects ("PX") = none ∧
    calcProjectSkillsMatch fxS9 ("PX") =
      { fxS9 with skillsMatchByProject := SMap.set fxS9.skillsMatchByProject ("PX") 100 } :=
  ⟨by decide, C4_amended.1 fxA4w [] [] [] (by decide), by decide,
    C4_amended.2.2.2 fxS9 ("PX") (by decide)⟩

/-- Claim C5 witness: the utilization characterization applied at a
concrete employee list with non-negative capacity. -/
theorem C5_wit :
    (∀ e ∈ [fxE40], 0 ≤ e.maxHours) ∧
    calculateResourceUtilization [fxE40] [fxA5a] none = specUtilization [fxE40] [fxA5a] none ∧
    calculateResourceUtilization [fxE40] [fxA5a, fxA5b] none = 75 :=
  ⟨by decide, (C5_thm [fxE40] [fxA5a] none (by decide)).1,
    (C5_thm [fxE40] [fxA5a] none (by decide)).2.1⟩

/-- Claim C6 (counterexample): with a virtual placeholder employee in
the employee list, calculateMetrics counts placeholder hours as
overtime (10) while the spec formula with placeholders excluded gives
0, which the optimizer's calculateTotalOvertime also reports. -/
theorem C6_cx :
    (calculateMetrics [fxEP0] [] [fxPh6] none).overtimeHours = 10 ∧
    jsRound (specTotalOvertime [fxEP0] [fxPh6]) = 0 ∧
    calculateTotalOvertime [fxEP0] [fxPh6] = 0 := by
  refine ⟨?_, ?_, ?_⟩ <;>
    simp [calculateMetrics, calculateResourceUtilization, periodKeySet, sumHoursByEmployee,
      hoursByPeriodIf, overtimeFromBuckets, calculateSkillsMatch, skillScoreOf, mapById,
      projById, batchPeriodKey, jsOr, jsRound, ratFloor, calculateTotalOvertime,
      isPlaceholderId, specTotalOvertime, specPeriodsOf, specPeriodHours,
      specEmployeeAssignments, SMap.set, SMap.get?, SMap.getD, SMap.hasKey, SSet.insert,
      SSet.has, fxEP0, fxPh6] <;>
    norm_num <;> decide

/-- Claim C6 witness: the amended statement applied at a concrete
sentinel-free employee list, including the period-scoped example of an
employee under capacity in each period but over cumulatively. -/
theorem C6_wit :
    (∀ e ∈ [fxE40], isPlaceholderId e.id = false) ∧
    calculateTotalOvertime [fxE40] [fxA6a, fxA6b] = specTotalOvertime [fxE40] [fxA6a, fxA6b] ∧
    (calculateMetrics [fxE40] [] [fxA6a, fxA6b] none).overtimeHours = 0 :=
  ⟨by decide, (C6_amended [fxE40] [] [fxA6a, fxA6b] none (by decide)).1,
    (C6_amended [fxE40] [] [fxA6a, fxA6b] none (by decide)).2.2⟩

/-- Claim C8: with zero placeholder assignments, optimizeSchedule
returns no suggestions, total score 0, and each predicted metric equal
to the corresponding current metric. -/
theorem C8_thm (data : ScheduleData) (alg : Alg) (weights : OptimizationWeights)
    (dateRange : Option DateRange)
    (h : (data.assignments.filter (fun a => isPlaceholderId a.employeeId)).length = 0) :
    optimizeSchedule data alg weights dateRange =
      { suggestions := [], totalScore := 0,
        metrics := optMetricsOf data data.assignments dateRange } ∧
    (optimizeSchedule data alg weights dateRange).metrics.predictedOvertimeHours =
      (optimizeSchedule data alg weights dateRange).metrics.currentOvertimeHours ∧
    (optimizeSchedule data alg weights dateRange).metrics.predictedUtilization =
      (optimizeSchedule data alg weights dateRange).metrics.currentUtilization ∧
    (optimizeSchedule data alg weights dateRange).metrics.predictedSkillsMatch =
      (optimizeSchedule data alg weights dateRange).metrics.currentSkillsMatch := by
  refine ⟨?_, ?_, ?_, ?_⟩ <;> simp [optimizeSchedule, h, optMetricsOf]

/-- Claim C8 witness: the no-placeholder result at a concrete dataset. -/
theorem C8_wit :
    ((fxD8.assignments.filter (fun a => isPlaceholderId a.employeeId)).length = 0) ∧
    optimizeSchedule fxD8 Alg.genetic fxW none =
      { suggestions := [], totalScore := 0,
        metrics := optMetricsOf fxD8 fxD8.assignments none } :=
  ⟨by decide, (C8_thm fxD8 Alg.genetic fxW none (by decide)).1⟩

/-- Claim C9: updateAssignment and removeAssignment with an id absent
from the assignment map return the state unchanged in every field. -/
theorem C9_thm (s : IncState) (assignmentId : String) (u : AssignmentPatch)
    (h : SMap.get? s.assignments assignmentId = none) :
    updateAssignment s assignmentId u = s ∧ removeAssignment s assignmentId = s := by
  constructor <;> simp [updateAssignment, removeAssignment, h]

/-- Claim C9 witness: the no-op applied at a concrete state and id. -/
theorem C9_wit :
    SMap.get? fxS9.assignments ("nope") = none ∧
    updateAssignment fxS9 ("nope") {} = fxS9 ∧
    removeAssignment fxS9 ("nope") = fxS9 :=
  ⟨by decide, (C9_thm fxS9 ("nope") {} (by decide)).1, (C9_thm fxS9 ("nope") {} (by decide)).2⟩

/-- Claim C10 (counterexample): with a virtual placeholder employee in
the employee list, adding a placeholder-only assignment in a new
period raises the reported utilization from 0 to 10000, so placeholder
hours do enter the numerator in that case. -/
theorem C10_cx :
    calculateResourceUtilization [fxEP1] [] none = 0 ∧
    calculateResourceUtilization [fxEP1] [fxPhX] none = 10000 ∧
    isPlaceholderId fxPhX.employeeId = true := by
  refine ⟨?_, ?_, by decide⟩ <;>
    simp [calculateResourceUtilization, periodKeySet, sumHoursByEmployee, batchPeriodKey,
      jsOr, jsRound, ratFloor, isPlaceholderId, SMap.set, SMap.get?, SMap.getD, SMap.hasKey,
      SSet.insert, SSet.has, fxEP1, fxPhX] <;>
    norm_num <;> decide

/-- Claim C10 witness: the amended monotonicity applied at a concrete
sentinel-free employee list and a concrete placeholder assignment. -/
theorem C10_wit :
    ((∀ e ∈ [fxE40], isPlaceholderId e.id = false) ∧
      isPlaceholderId fxPhW.employeeId = true ∧
      (∀ a ∈ [fxA5a], 0 ≤ a.hours) ∧ (∀ e ∈ [fxE40], 0 ≤ e.maxHours)) ∧
    specTotalAssignedHours [fxE40] ([fxA5a] ++ [fxPhW]) =
      specTotalAssignedHours [fxE40] [fxA5a] ∧
    calculateResourceUtilization [fxE40] ([fxA5a] ++ [fxPhW]) none ≤
      calculateResourceUtilization [fxE40] [fxA5a] none :=
  ⟨⟨by decide, by decide, by decide, by decide⟩,
    (C10_amended [fxE40] [fxA5a] fxPhW (by decide) (by decide) (by decide) (by decide)).1,
    (C10_amended [fxE40] [fxA5a] fxPhW (by decide) (by decide) (by decide) (by decide)).2⟩

end Sched
